import Mathlib

/-!
Shallow embedding of the tmpnet network orchestration code
(src/tests/fixture/tmpnet/network.go and src/tests/fixture/tmpnet/flags/kube_config.go)
of the volrex repository, together with proofs about the embedded definitions.

Flag maps are modelled as association lists over string keys. The FlagsMap
helper methods (SetDefault, SetDefaults, GetBoolVal, GetStringVal) and the
Node/Subnet types are declared outside the provided sources; where a
definition below depends on them it is modelled from the spec and marked as
such in its doc comment.
-/

namespace Tmpnet

/-- Values stored in a node flag map: the source stores strings and booleans. -/
inductive FlagVal where
  | str (s : String)
  | bool (b : Bool)
  deriving DecidableEq, Repr

/-- A flag map is an association list from flag keys to flag values. -/
abbrev FlagsMap := List (String × FlagVal)

/-- Look up the value stored for a key. -/
def flagGet (m : FlagsMap) (k : String) : Option FlagVal :=
  match m with
  | [] => none
  | (k2, v) :: rest => if k2 = k then some v else flagGet rest k

/-- Store a value for a key, replacing any existing binding (Go map assignment). -/
def setFlag (m : FlagsMap) (k : String) (v : FlagVal) : FlagsMap :=
  match m with
  | [] => [(k, v)]
  | (k2, v2) :: rest => if k2 = k then (k2, v) :: rest else (k2, v2) :: setFlag rest k v

/-- Remove any binding for a key (Go delete). -/
def eraseFlag (m : FlagsMap) (k : String) : FlagsMap :=
  m.filter (fun kv => kv.1 ≠ k)

/-- Modelled from the spec: FlagsMap.SetDefault is absent from src/; the spec
states precedence is set-if-absent, so the value is stored only when the key
has no binding yet. -/
def setDefault (m : FlagsMap) (k : String) (v : FlagVal) : FlagsMap :=
  if (flagGet m k).isSome then m else m ++ [(k, v)]

/-- Modelled from the spec: FlagsMap.SetDefaults applies setDefault for every
entry of the defaults map. -/
def setDefaults (m : FlagsMap) (defaults : FlagsMap) : FlagsMap :=
  defaults.foldl (fun acc kv => setDefault acc kv.1 kv.2) m

/-- Modelled from the spec: FlagsMap.GetBoolVal is absent from src/; it returns
the stored boolean, the given default when the key is absent, and an error when
the stored value cannot be read as a boolean. -/
def getBoolVal (m : FlagsMap) (k : String) (defVal : Bool) : Except String Bool :=
  match flagGet m k with
  | none => .ok defVal
  | some (.bool b) => .ok b
  | some (.str s) =>
    if s = "true" then .ok true
    else if s = "false" then .ok false
    else .error ("unable to cast value of " ++ k ++ " to bool")

/-- Modelled from the spec: FlagsMap.GetStringVal is absent from src/; it
returns the stored string, the empty string when the key is absent, and an
error when the stored value is not a string. -/
def getStringVal (m : FlagsMap) (k : String) : Except String String :=
  match flagGet m k with
  | none => .ok ""
  | some (.str s) => .ok s
  | some (.bool _) => .error ("unable to cast value of " ++ k ++ " to string")

theorem flagGet_append_single (m : FlagsMap) (k k2 : String) (v2 : FlagVal) :
    flagGet (m ++ [(k2, v2)]) k =
      match flagGet m k with
      | some v => some v
      | none => if k2 = k then some v2 else none := by
  induction m with
  | nil => simp [flagGet]
  | cons hd tl ih =>
    obtain ⟨k3, v3⟩ := hd
    by_cases h : k3 = k
    · simp [flagGet, h]
    · simpa [flagGet, h] using ih

theorem flagGet_setDefault_of_some (m : FlagsMap) (k k2 : String) (v v2 : FlagVal)
    (h : flagGet m k = some v) : flagGet (setDefault m k2 v2) k = some v := by
  unfold setDefault
  by_cases hk : (flagGet m k2).isSome
  · simp [hk, h]
  · simp [hk, flagGet_append_single, h]

theorem flagGet_setDefault_of_ne (m : FlagsMap) (k k2 : String) (v2 : FlagVal)
    (h : k2 ≠ k) : flagGet (setDefault m k2 v2) k = flagGet m k := by
  unfold setDefault
  by_cases hk : (flagGet m k2).isSome
  · simp [hk]
  · rw [if_neg hk, flagGet_append_single]
    cases flagGet m k <;> simp [h]

theorem flagGet_setDefault_self_of_none (m : FlagsMap) (k : String) (v : FlagVal)
    (h : flagGet m k = none) : flagGet (setDefault m k v) k = some v := by
  unfold setDefault
  simp [h, flagGet_append_single]

theorem flagGet_setDefault_isSome (m : FlagsMap) (k : String) (v : FlagVal) :
    (flagGet (setDefault m k v) k).isSome := by
  cases h : flagGet m k with
  | none => simp [flagGet_setDefault_self_of_none m k v h]
  | some v2 => simp [flagGet_setDefault_of_some m k k v2 v h]

theorem flagGet_setDefaults_of_some (m d : FlagsMap) (k : String) (v : FlagVal)
    (h : flagGet m k = some v) : flagGet (setDefaults m d) k = some v := by
  induction d generalizing m with
  | nil => simpa [setDefaults]
  | cons hd tl ih =>
    simp only [setDefaults, List.foldl_cons]
    exact ih _ (flagGet_setDefault_of_some m k hd.1 v hd.2 h)

theorem flagGet_setDefaults_isSome (m d : FlagsMap) (k : String)
    (h : (flagGet m k).isSome) : (flagGet (setDefaults m d) k).isSome := by
  obtain ⟨v, hv⟩ := Option.isSome_iff_exists.mp h
  simp [flagGet_setDefaults_of_some m d k v hv]

theorem flagGet_setFlag_self (m : FlagsMap) (k : String) (v : FlagVal) :
    flagGet (setFlag m k v) k = some v := by
  induction m with
  | nil => simp [setFlag, flagGet]
  | cons hd tl ih =>
    obtain ⟨k2, v2⟩ := hd
    by_cases h : k2 = k
    · simp [setFlag, flagGet, h]
    · simp [setFlag, flagGet, h, ih]

theorem flagGet_setFlag_of_ne (m : FlagsMap) (k k2 : String) (v2 : FlagVal)
    (h : k2 ≠ k) : flagGet (setFlag m k2 v2) k = flagGet m k := by
  induction m with
  | nil => simp [setFlag, flagGet, h]
  | cons hd tl ih =>
    obtain ⟨k3, v3⟩ := hd
    by_cases h3 : k3 = k2
    · subst h3
      simp [setFlag, flagGet, h]
    · by_cases h4 : k3 = k
      · simp [setFlag, flagGet, h3, h4, Ne.symm h]
      · simp [setFlag, flagGet, h3, h4, ih]

theorem flagGet_eraseFlag_self (m : FlagsMap) (k : String) :
    flagGet (eraseFlag m k) k = none := by
  induction m with
  | nil => simp [eraseFlag, flagGet]
  | cons hd tl ih =>
    obtain ⟨k2, v2⟩ := hd
    by_cases h : k2 = k
    · simpa [eraseFlag, h] using ih
    · simpa [eraseFlag, flagGet, h] using ih

theorem flagGet_eraseFlag_of_ne (m : FlagsMap) (k k2 : String) (h : k2 ≠ k) :
    flagGet (eraseFlag m k2) k = flagGet m k := by
  induction m with
  | nil => simp [eraseFlag, flagGet]
  | cons hd tl ih =>
    obtain ⟨k3, v3⟩ := hd
    by_cases h3 : k3 = k2
    · subst h3
      simpa [eraseFlag, flagGet, h] using ih
    · by_cases h4 : k3 = k
      · simp [eraseFlag, flagGet, h3, h4, Ne.symm h]
      · simp only [eraseFlag, ne_eq, decide_not] at ih
        simp [eraseFlag, flagGet, h3, h4, ih]

/-- Flag key for sybil protection (config.SybilProtectionEnabledKey). -/
def SybilProtectionEnabledKey : String := "sybil-protection-enabled"

/-- Flag key for the network name/id (config.NetworkNameKey). -/
def NetworkNameKey : String := "network-id"

/-- Flag key for bootstrap node IDs (config.BootstrapIDsKey). -/
def BootstrapIDsKey : String := "bootstrap-ids"

/-- Flag key for bootstrap node IPs (config.BootstrapIPsKey). -/
def BootstrapIPsKey : String := "bootstrap-ips"

/-- Flag key for genesis file content (config.GenesisFileContentKey). -/
def GenesisFileContentKey : String := "genesis-file-content"

/-- Flag key for subnet config content (config.SubnetConfigContentKey). -/
def SubnetConfigContentKey : String := "subnet-config-content"

/-- Flag key for chain config content (config.ChainConfigContentKey). -/
def ChainConfigContentKey : String := "chain-config-content"

/-- Flag key for tracked subnets (config.TrackSubnetsKey). -/
def TrackSubnetsKey : String := "track-subnets"

/-- Flag key for the plugin directory (config.PluginDirKey). -/
def PluginDirKey : String := "plugin-dir"

/-- Flag key for the node data directory (config.DataDirKey). -/
def DataDirKey : String := "data-dir"

/-- Global tmpnet defaults applied last when composing node flags
(DefaultTmpnetFlags in the source). -/
def DefaultTmpnetFlags : FlagsMap :=
  [ ("network-peer-list-pull-gossip-frequency", .str "250ms"),
    ("network-max-reconnect-delay", .str "1s"),
    ("health-check-frequency", .str "500ms"),
    ("api-admin-enabled", .bool true),
    ("index-enabled", .bool true) ]

/-- The genesis fields of a network used by the orchestration logic:
the genesis-declared network id and the number of initial stakers. -/
structure MGenesis where
  networkID : Nat
  initialStakers : Nat
  deriving DecidableEq, Repr

/-- GetNetworkID: the genesis network id wins when the genesis is present and
its id is nonzero, otherwise the NetworkID field is used. -/
def getNetworkID (genesis : Option MGenesis) (networkID : Nat) : Nat :=
  match genesis with
  | some g => if g.networkID > 0 then g.networkID else networkID
  | none => networkID

/-- Inputs to flag composition that the source derives from on-disk state and
JSON marshalling: the bootstrap IP/ID lists read from the other started
non-ephemeral nodes, and the three base64 content blobs. -/
structure WriteFlagsInputs where
  bootstrapIDs : List String
  bootstrapIPs : List String
  genesisFileContent : String
  subnetConfigContent : String
  chainConfigContent : String
  deriving DecidableEq, Repr

/-- writeNodeFlags: composes the flag set written for a node start. It clones
the node flag map, then layers (set-if-absent) the stringified network id, the
computed bootstrap IDs/IPs, the genesis content (with a forced sybil default
for a single-node single-staker network), the subnet and chain content blobs
when non-empty, the network-wide defaults, and the global tmpnet defaults. -/
def writeNodeFlags (numNodes : Nat) (genesis : Option MGenesis) (networkID : Nat)
    (defaultFlags : FlagsMap) (inputs : WriteFlagsInputs) (nodeFlags : FlagsMap) :
    FlagsMap :=
  let flags := nodeFlags
  let flags := setDefault flags NetworkNameKey
    (.str (toString (getNetworkID genesis networkID)))
  let flags := setDefault flags BootstrapIDsKey
    (.str (String.intercalate "," inputs.bootstrapIDs))
  let flags := setDefault flags BootstrapIPsKey
    (.str (String.intercalate "," inputs.bootstrapIPs))
  let flags :=
    match genesis with
    | some g =>
      let f := setDefault flags GenesisFileContentKey (.str inputs.genesisFileContent)
      if numNodes = 1 ∧ g.initialStakers = 1 then
        setDefault f SybilProtectionEnabledKey (.bool false)
      else f
    | none => flags
  let flags :=
    if inputs.subnetConfigContent.length > 0 then
      setDefault flags SubnetConfigContentKey (.str inputs.subnetConfigContent)
    else flags
  let flags :=
    if inputs.chainConfigContent.length > 0 then
      setDefault flags ChainConfigContentKey (.str inputs.chainConfigContent)
    else flags
  let flags := setDefaults flags defaultFlags
  setDefaults flags DefaultTmpnetFlags

theorem flagGet_ite_of_some {c : Prop} [Decidable c] (a b : FlagsMap)
    (k : String) (v : FlagVal) (ha : flagGet a k = some v)
    (hb : flagGet b k = some v) : flagGet (if c then a else b) k = some v := by
  split <;> assumption

theorem flagGet_append_single_of_some (m : FlagsMap) (k k2 : String)
    (v v2 : FlagVal) (h : flagGet m k = some v) :
    flagGet (m ++ [(k2, v2)]) k = some v := by
  rw [flagGet_append_single, h]

set_option maxHeartbeats 1000000 in
/-- Later flag-composition layers preserve any value already present after the
first three set-if-absent layers of writeNodeFlags. -/
theorem flagGet_writeNodeFlags_later_layers (numNodes networkID : Nat)
    (genesis : Option MGenesis) (defaultFlags : FlagsMap)
    (inputs : WriteFlagsInputs) (nodeFlags : FlagsMap) (k : String) (v : FlagVal)
    (h : flagGet
      (setDefault
        (setDefault
          (setDefault nodeFlags NetworkNameKey
            (.str (toString (getNetworkID genesis networkID))))
          BootstrapIDsKey (.str (String.intercalate "," inputs.bootstrapIDs)))
        BootstrapIPsKey (.str (String.intercalate "," inputs.bootstrapIPs))) k
      = some v) :
    flagGet (writeNodeFlags numNodes genesis networkID defaultFlags inputs nodeFlags) k
      = some v := by
  cases genesis <;>
    (unfold writeNodeFlags
     apply flagGet_setDefaults_of_some
     apply flagGet_setDefaults_of_some
     dsimp only) <;>
  repeat'
    first
    | exact h
    | apply flagGet_ite_of_some
    | apply flagGet_setDefault_of_some
    | apply flagGet_append_single_of_some

/-- Any binding present in the caller's flag map survives the whole flag
composition with its value unchanged. -/
theorem writeNodeFlags_flagGet_of_some (numNodes networkID : Nat)
    (genesis : Option MGenesis) (defaultFlags : FlagsMap)
    (inputs : WriteFlagsInputs) (nodeFlags : FlagsMap) (k : String) (v : FlagVal)
    (h : flagGet nodeFlags k = some v) :
    flagGet (writeNodeFlags numNodes genesis networkID defaultFlags inputs nodeFlags) k
      = some v := by
  apply flagGet_writeNodeFlags_later_layers
  exact flagGet_setDefault_of_some _ k _ v _
    (flagGet_setDefault_of_some _ k _ v _
      (flagGet_setDefault_of_some _ k _ v _ h))

/-- C3: for every node and every flag key present in the node's own flag map
before composition, the composed flag set written for the node's start retains
the node's value for that key verbatim; no later layer overwrites it. -/
theorem writeNodeFlags_preserves_caller_flags (numNodes networkID : Nat)
    (genesis : Option MGenesis) (defaultFlags : FlagsMap)
    (inputs : WriteFlagsInputs) (nodeFlags : FlagsMap) (k : String) (v : FlagVal)
    (h : flagGet nodeFlags k = some v) :
    flagGet (writeNodeFlags numNodes genesis networkID defaultFlags inputs nodeFlags) k
      = some v :=
  writeNodeFlags_flagGet_of_some numNodes networkID genesis defaultFlags inputs
    nodeFlags k v h

/-- Witness for C3 at a concrete input: a caller-set sybil-protection value
survives composition. -/
theorem writeNodeFlags_preserves_caller_flags_witness :
    flagGet
      (writeNodeFlags 2 none 88888 [("log-level", .str "debug")]
        ⟨["id1"], ["ip1"], "", "", ""⟩
        [(SybilProtectionEnabledKey, .bool false)])
      SybilProtectionEnabledKey = some (.bool false) :=
  writeNodeFlags_preserves_caller_flags 2 88888 none
    [("log-level", .str "debug")] ⟨["id1"], ["ip1"], "", "", ""⟩
    [(SybilProtectionEnabledKey, .bool false)]
    SybilProtectionEnabledKey (.bool false) (by decide)

/-- C4 counterexample: with a caller-supplied bootstrap-ids value, the flag
file written before the node start carries the caller's value verbatim, not
the orchestrator-computed one, refuting the claim that the three keys are
always set to orchestrator-computed values. -/
theorem writeNodeFlags_bootstrap_ids_caller_wins :
    flagGet
      (writeNodeFlags 2 none 88888 []
        ⟨["computed-id"], ["computed-ip"], "", "", ""⟩
        [(BootstrapIDsKey, .str "caller-supplied")])
      BootstrapIDsKey = some (.str "caller-supplied") ∧
    String.intercalate "," ["computed-id"] ≠ "caller-supplied" := by
  constructor
  · rfl
  · decide

/-- C4 (amended): the three orchestrator-managed keys (stringified effective
network id, bootstrap IDs, bootstrap IPs) are always present in the flag file
written before each start, and when the caller's flag map does not bind them
they are set to the orchestrator-computed values; a caller-supplied binding is
retained instead. -/
theorem writeNodeFlags_computed_keys (numNodes networkID : Nat)
    (genesis : Option MGenesis) (defaultFlags : FlagsMap)
    (inputs : WriteFlagsInputs) (nodeFlags : FlagsMap) :
    ((flagGet (writeNodeFlags numNodes genesis networkID defaultFlags inputs nodeFlags)
        NetworkNameKey).isSome ∧
      (flagGet (writeNodeFlags numNodes genesis networkID defaultFlags inputs nodeFlags)
        BootstrapIDsKey).isSome ∧
      (flagGet (writeNodeFlags numNodes genesis networkID defaultFlags inputs nodeFlags)
        BootstrapIPsKey).isSome) ∧
    (flagGet nodeFlags NetworkNameKey = none →
      flagGet (writeNodeFlags numNodes genesis networkID defaultFlags inputs nodeFlags)
        NetworkNameKey = some (.str (toString (getNetworkID genesis networkID)))) ∧
    (flagGet nodeFlags BootstrapIDsKey = none →
      flagGet (writeNodeFlags numNodes genesis networkID defaultFlags inputs nodeFlags)
        BootstrapIDsKey = some (.str (String.intercalate "," inputs.bootstrapIDs))) ∧
    (flagGet nodeFlags BootstrapIPsKey = none →
      flagGet (writeNodeFlags numNodes genesis networkID defaultFlags inputs nodeFlags)
        BootstrapIPsKey = some (.str (String.intercalate "," inputs.bootstrapIPs))) := by
  have hname : ∀ _h : flagGet nodeFlags NetworkNameKey = none,
      flagGet (writeNodeFlags numNodes genesis networkID defaultFlags inputs nodeFlags)
        NetworkNameKey = some (.str (toString (getNetworkID genesis networkID))) := by
    intro h0
    apply flagGet_writeNodeFlags_later_layers
    apply flagGet_setDefault_of_some
    apply flagGet_setDefault_of_some
    exact flagGet_setDefault_self_of_none _ _ _ h0
  have hids : ∀ _h : flagGet nodeFlags BootstrapIDsKey = none,
      flagGet (writeNodeFlags numNodes genesis networkID defaultFlags inputs nodeFlags)
        BootstrapIDsKey = some (.str (String.intercalate "," inputs.bootstrapIDs)) := by
    intro h0
    apply flagGet_writeNodeFlags_later_layers
    apply flagGet_setDefault_of_some
    apply flagGet_setDefault_self_of_none
    rw [flagGet_setDefault_of_ne _ _ _ _ (by decide)]
    exact h0
  have hips : ∀ _h : flagGet nodeFlags BootstrapIPsKey = none,
      flagGet (writeNodeFlags numNodes genesis networkID defaultFlags inputs nodeFlags)
        BootstrapIPsKey = some (.str (String.intercalate "," inputs.bootstrapIPs)) := by
    intro h0
    apply flagGet_writeNodeFlags_later_layers
    apply flagGet_setDefault_self_of_none
    rw [flagGet_setDefault_of_ne _ _ _ _ (by decide),
      flagGet_setDefault_of_ne _ _ _ _ (by decide)]
    exact h0
  refine ⟨⟨?_, ?_, ?_⟩, hname, hids, hips⟩
  · cases h0 : flagGet nodeFlags NetworkNameKey with
    | none => simp [hname h0]
    | some v =>
      simp [writeNodeFlags_flagGet_of_some numNodes networkID genesis defaultFlags
        inputs nodeFlags NetworkNameKey v h0]
  · cases h0 : flagGet nodeFlags BootstrapIDsKey with
    | none => simp [hids h0]
    | some v =>
      simp [writeNodeFlags_flagGet_of_some numNodes networkID genesis defaultFlags
        inputs nodeFlags BootstrapIDsKey v h0]
  · cases h0 : flagGet nodeFlags BootstrapIPsKey with
    | none => simp [hips h0]
    | some v =>
      simp [writeNodeFlags_flagGet_of_some numNodes networkID genesis defaultFlags
        inputs nodeFlags BootstrapIPsKey v h0]

/-- Witness for the amended C4 at a concrete input: with an empty caller flag
map, the three keys come out as the computed values. -/
theorem writeNodeFlags_computed_keys_witness :
    flagGet (writeNodeFlags 2 none 88888 [] ⟨["idA"], ["ipA"], "", "", ""⟩ [])
        NetworkNameKey = some (.str "88888") ∧
    flagGet (writeNodeFlags 2 none 88888 [] ⟨["idA"], ["ipA"], "", "", ""⟩ [])
        BootstrapIDsKey = some (.str "idA") ∧
    flagGet (writeNodeFlags 2 none 88888 [] ⟨["idA"], ["ipA"], "", "", ""⟩ [])
        BootstrapIPsKey = some (.str "ipA") := by
  have h := writeNodeFlags_computed_keys 2 88888 none [] ⟨["idA"], ["ipA"], "", "", ""⟩ []
  refine ⟨?_, ?_, ?_⟩
  · have := h.2.1 rfl
    simpa using this
  · have := h.2.2.1 rfl
    simpa using this
  · have := h.2.2.2 rfl
    simpa using this

/-- A chain declared for a subnet: its created id (0 models ids.Empty), the VM
id naming the plugin binary, the version arguments used to query the binary,
and its explicit configuration content. -/
structure MChain where
  chainID : Nat
  vmID : String
  versionArgs : List String
  config : String
  deriving DecidableEq, Repr

/-- A subnet: name, created id (0 models ids.Empty), target validator set,
lazily allocated owning key, and chains. -/
structure MSubnet where
  name : String
  subnetID : Nat
  validatorIDs : List Nat
  owningKey : Option Nat
  chains : List MChain
  deriving DecidableEq, Repr

/-- The sentinel rpcchainvm version treated as unknown. -/
def invalidRPCVersion : Nat := 0

/-- checkVMBinaries: checks that VM binaries for the given subnets exist and
that their rpcchainvm version matches the avalanchego binary. The filesystem
and process environment are supplied as oracles: statOK says whether a path
exists, and getVersion models invoking a binary with version arguments and
parsing its JSON output (none models command failure or unparseable output).
A missing binary or unreadable version output is a warning only; an actual
version mismatch produces an error. -/
def checkVMBinaries (statOK : String → Bool)
    (getVersion : String → List String → Option Nat)
    (subnets : List MSubnet) (avalanchegoPath pluginDir : String) :
    Except String Unit :=
  if subnets.isEmpty then .ok ()
  else
    match getVersion avalanchegoPath ["--version-json"] with
    | none => .ok ()
    | some avagoRPCVersion =>
      let incompatibleChains := subnets.any fun subnet =>
        subnet.chains.any fun chain =>
          let vmPath := pluginDir ++ "/" ++ chain.vmID
          if !statOK vmPath then false
          else if chain.versionArgs.isEmpty || avagoRPCVersion == invalidRPCVersion then
            false
          else
            match getVersion vmPath chain.versionArgs with
            | none => false
            | some vmRPCVersion => vmRPCVersion != avagoRPCVersion
      if incompatibleChains then
        .error "the rpcchainvm version of the VMs for one or more chains may not be compatible with the specified avalanchego binary"
      else .ok ()

/-- GetPluginDir: reads the plugin dir from the network default flags. -/
def getPluginDir (defaultFlags : FlagsMap) : Except String String :=
  getStringVal defaultFlags PluginDirKey

/-- BootstrapNewNetwork up to its binary check: a nonzero node count is
required, then checkVMBinaries runs and its error is returned as-is; the
remaining phases (EnsureDefaultConfig, Create, Bootstrap) are supplied as the
rest outcome. -/
def bootstrapNewNetwork (statOK : String → Bool)
    (getVersion : String → List String → Option Nat) (numNodes : Nat)
    (subnets : List MSubnet) (avalancheGoExecPath pluginDir : String)
    (rest : Except String Unit) : Except String Unit :=
  if numNodes = 0 then .error "at least one node is required"
  else
    match checkVMBinaries statOK getVersion subnets avalancheGoExecPath pluginDir with
    | .error e => .error e
    | .ok () => rest

/-- StartNode up to its binary check: resolves the plugin dir from the network
default flags, runs the preceding steps (EnsureNodeConfig and the node config
write, supplied as an outcome), then checkVMBinaries with the node runtime's
avalanchego path; the remaining phases (flag writing and process start with
its compensating stop) are supplied as the rest outcome. -/
def startNode (statOK : String → Bool)
    (getVersion : String → List String → Option Nat) (subnets : List MSubnet)
    (defaultFlags : FlagsMap) (avalancheGoPath : String)
    (preSteps rest : Except String Unit) : Except String Unit :=
  match getPluginDir defaultFlags with
  | .error e => .error e
  | .ok pluginDir =>
    match preSteps with
    | .error e => .error e
    | .ok () =>
      match checkVMBinaries statOK getVersion subnets avalancheGoPath pluginDir with
      | .error e => .error e
      | .ok () => rest

/-- C1 counterexample: one subnet whose chain's VM binary reports rpcchainvm
version 2 while the avalanchego binary reports version 1; every other phase
succeeds, yet BootstrapNewNetwork and StartNode both return the
incompatibility error, refuting the claim that the mismatch is non-fatal. -/
theorem vmVersionMismatch_is_fatal_counterexample :
    bootstrapNewNetwork (fun _ => true)
        (fun path _ => if path = "/avago" then some 1 else some 2)
        1 [⟨"subnetA", 0, [1], none, [⟨0, "vmid1", ["--version-json"], ""⟩]⟩]
        "/avago" "/plugins" (.ok ())
      = .error "the rpcchainvm version of the VMs for one or more chains may not be compatible with the specified avalanchego binary" ∧
    startNode (fun _ => true)
        (fun path _ => if path = "/avago" then some 1 else some 2)
        [⟨"subnetA", 0, [1], none, [⟨0, "vmid1", ["--version-json"], ""⟩]⟩]
        [] "/avago" (.ok ()) (.ok ())
      = .error "the rpcchainvm version of the VMs for one or more chains may not be compatible with the specified avalanchego binary" := by
  constructor <;> rfl

/-- C1 (amended): a version mismatch between a VM plugin binary and the
avalanchego binary makes checkVMBinaries return an error, and that error is
propagated by BootstrapNewNetwork and StartNode, so the mismatch is fatal to
start; missing binaries or unreadable version output are non-fatal warnings
and checkVMBinaries succeeds. -/
theorem checkVMBinaries_mismatch_fatal_missing_nonfatal
    (statOK : String → Bool) (getVersion : String → List String → Option Nat)
    (subnets : List MSubnet) (execPath pluginDir : String) :
    (∀ numNodes rest e, numNodes ≠ 0 →
      checkVMBinaries statOK getVersion subnets execPath pluginDir = .error e →
      bootstrapNewNetwork statOK getVersion numNodes subnets execPath pluginDir rest
        = .error e) ∧
    (∀ defaultFlags rest e,
      getPluginDir defaultFlags = .ok pluginDir →
      checkVMBinaries statOK getVersion subnets execPath pluginDir = .error e →
      startNode statOK getVersion subnets defaultFlags execPath (.ok ()) rest
        = .error e) ∧
    ((∀ path, statOK path = false) →
      checkVMBinaries statOK getVersion subnets execPath pluginDir = .ok ()) ∧
    (getVersion execPath ["--version-json"] = none →
      checkVMBinaries statOK getVersion subnets execPath pluginDir = .ok ()) ∧
    ((∀ subnet ∈ subnets, ∀ chain ∈ subnet.chains,
        getVersion (pluginDir ++ "/" ++ chain.vmID) chain.versionArgs = none) →
      checkVMBinaries statOK getVersion subnets execPath pluginDir = .ok ()) := by
  refine ⟨?_, ?_, ?_, ?_, ?_⟩
  · intro numNodes rest e hn hcheck
    unfold bootstrapNewNetwork
    rw [if_neg hn, hcheck]
  · intro defaultFlags rest e hpd hcheck
    unfold startNode
    rw [hpd]
    dsimp only
    rw [hcheck]
  · intro hstat
    unfold checkVMBinaries
    split
    · rfl
    · cases getVersion execPath ["--version-json"] with
      | none => rfl
      | some avago =>
        simp only [List.any_eq_true, hstat, Bool.not_false, if_true]
        rw [if_neg]
        simp
  · intro hver
    unfold checkVMBinaries
    split
    · rfl
    · rw [hver]
  · intro hvm
    unfold checkVMBinaries
    split
    · rfl
    · cases hg : getVersion execPath ["--version-json"] with
      | none => rfl
      | some avago =>
        dsimp only
        split
        · rename_i h2
          obtain ⟨subnet, hs, hany⟩ := List.any_eq_true.mp h2
          obtain ⟨chain, hc, hchain⟩ := List.any_eq_true.mp hany
          rw [hvm subnet hs chain hc] at hchain
          simp at hchain
        · rfl

/-- Witness for the amended C1 at concrete inputs: the mismatch error
propagates out of BootstrapNewNetwork, and a network whose VM binaries are all
missing passes the check. -/
theorem checkVMBinaries_mismatch_fatal_missing_nonfatal_witness :
    bootstrapNewNetwork (fun _ => true)
        (fun path _ => if path = "/avago" then some 3 else some 4)
        2 [⟨"subnetB", 0, [1], none, [⟨0, "vmid2", ["--version-json"], ""⟩]⟩]
        "/avago" "/plugins" (.ok ())
      = .error "the rpcchainvm version of the VMs for one or more chains may not be compatible with the specified avalanchego binary" ∧
    checkVMBinaries (fun _ => false)
        (fun path _ => if path = "/avago" then some 3 else some 4)
        [⟨"subnetB", 0, [1], none, [⟨0, "vmid2", ["--version-json"], ""⟩]⟩]
        "/avago" "/plugins"
      = .ok () := by
  constructor
  · exact (checkVMBinaries_mismatch_fatal_missing_nonfatal
      (fun _ => true) (fun path _ => if path = "/avago" then some 3 else some 4)
      [⟨"subnetB", 0, [1], none, [⟨0, "vmid2", ["--version-json"], ""⟩]⟩]
      "/avago" "/plugins").1 2 (.ok ()) _ (by decide) (by rfl)
  · exact (checkVMBinaries_mismatch_fatal_missing_nonfatal
      (fun _ => false) (fun path _ => if path = "/avago" then some 3 else some 4)
      [⟨"subnetB", 0, [1], none, [⟨0, "vmid2", ["--version-json"], ""⟩]⟩]
      "/avago" "/plugins").2.2.1 (fun _ => rfl)

/-- A network node as used by subnet creation and bootstrap: its id, its
mutable flag map, and whether it is currently running (URI non-empty). -/
structure MNode where
  nodeID : Nat
  flags : FlagsMap
  running : Bool
  deriving DecidableEq, Repr

/-- The network state threaded through subnet creation and bootstrap. -/
structure MNetwork where
  subnets : List MSubnet
  preFundedKeys : List Nat
  nodes : List MNode
  deriving DecidableEq, Repr

/-- External effects issued during subnet creation and bootstrap, in order. -/
inductive Event where
  | allocKey (subnetName : String) (key : Nat)
  | createSubnetRPC (subnetName : String)
  | writeSubnet (subnetName : String)
  | restartNode (nodeID : Nat)
  | addValidatorsRPC (subnetName : String)
  | waitActiveValidators (subnetName : String)
  | createChainsRPC (subnetName : String)
  deriving DecidableEq, Repr

/-- First phase of CreateSubnets: iterate the subnets in order; a subnet with
no validators is a hard error, a subnet whose id is already set is skipped,
otherwise an owning key is allocated from the end of the pre-funded key pool
when the subnet has none (an exhausted pool is an error raised before the
creation RPC), the creation RPC is issued and the subnet record written.
Returns the effect trace together with either the error or the updated subnet
list, the remaining pool, and the created subnets. The external creation RPC
returns fresh identifiers, modelled as successive nonzero values from nextID
(Subnet.Create is not under src/; per the spec the RPC returns created
identifiers). -/
def createSubnetsLoop (nextID : Nat) :
    List MSubnet → List Nat →
    List Event × Except String (List MSubnet × List Nat × List MSubnet)
  | [], pool => ([], .ok ([], pool, []))
  | subnet :: rest, pool =>
    if subnet.validatorIDs.isEmpty then
      ([], .error ("subnet " ++ toString subnet.subnetID ++ " needs at least one validator"))
    else if subnet.subnetID ≠ 0 then
      match createSubnetsLoop nextID rest pool with
      | (evs, .error e) => (evs, .error e)
      | (evs, .ok (rest2, pool2, created)) => (evs, .ok (subnet :: rest2, pool2, created))
    else
      match subnet.owningKey, pool.getLast? with
      | none, none =>
        ([], .error ("no pre-funded keys available to create subnet " ++ subnet.name))
      | none, some key =>
        let subnet2 := { subnet with owningKey := some key, subnetID := nextID }
        let evs0 := [Event.allocKey subnet.name key, Event.createSubnetRPC subnet.name,
          Event.writeSubnet subnet.name]
        (match createSubnetsLoop (nextID + 1) rest pool.dropLast with
          | (evs, .error e) => (evs0 ++ evs, .error e)
          | (evs, .ok (rest2, pool2, created)) =>
            (evs0 ++ evs, .ok (subnet2 :: rest2, pool2, subnet2 :: created)))
      | some _, _ =>
        let subnet2 := { subnet with subnetID := nextID }
        let evs0 := [Event.createSubnetRPC subnet.name, Event.writeSubnet subnet.name]
        (match createSubnetsLoop (nextID + 1) rest pool with
          | (evs, .error e) => (evs0 ++ evs, .error e)
          | (evs, .ok (rest2, pool2, created)) =>
            (evs0 ++ evs, .ok (subnet2 :: rest2, pool2, subnet2 :: created)))

/-- TrackedSubnetsForNode: the comma-joined ids of the created subnets the
given node validates. -/
def trackedSubnetsForNode (subnets : List MSubnet) (nodeID : Nat) : String :=
  String.intercalate ","
    ((subnets.filter
        (fun s => s.subnetID != 0 && s.validatorIDs.contains nodeID)).map
      (fun s => toString s.subnetID))

/-- Second phase of CreateSubnets: recompute every node's tracked-subnets flag
from the updated subnet list, collecting the nodes whose value actually
changed. A flag value that cannot be read as a string is an error. -/
def updateTrackedSubnets (subnets : List MSubnet) :
    List MNode → Except String (List MNode × List MNode)
  | [] => .ok ([], [])
  | node :: rest =>
    match getStringVal node.flags TrackSubnetsKey with
    | .error e => .error e
    | .ok existingTrackedSubnets =>
      let trackedSubnets := trackedSubnetsForNode subnets node.nodeID
      match updateTrackedSubnets subnets rest with
      | .error e => .error e
      | .ok (rest2, reconfigured) =>
        if existingTrackedSubnets = trackedSubnets then
          .ok (node :: rest2, reconfigured)
        else
          let node2 :=
            { node with flags := setFlag node.flags TrackSubnetsKey (.str trackedSubnets) }
          .ok (node2 :: rest2, node2 :: reconfigured)

/-- CreateSubnets: ensure each subnet on the network is created. Phase one is
createSubnetsLoop; when nothing was created the call returns with no further
effect. Otherwise the consumed key pool is persisted, tracked-subnet flags are
recomputed (restarting the changed running nodes when restartRequired),
validators are added for each created subnet, each subnet's validators are
awaited as active before its chains are created, and when restartRequired the
validators of subnets carrying explicit chain configuration are restarted.
External RPC outcomes are modelled as succeeding; the chain ids returned by
the external chain-creation RPC are not tracked. -/
def createSubnets (net : MNetwork) (nextID : Nat) (restartRequired : Bool) :
    List Event × Except String MNetwork :=
  match createSubnetsLoop nextID net.subnets net.preFundedKeys with
  | (evs1, .error e) => (evs1, .error e)
  | (evs1, .ok (subnets2, pool2, created)) =>
    if created.isEmpty then
      (evs1, .ok { net with subnets := subnets2, preFundedKeys := pool2 })
    else
      match updateTrackedSubnets subnets2 net.nodes with
      | .error e => (evs1, .error e)
      | .ok (nodes2, reconfigured) =>
        let restartEvs :=
          if restartRequired then
            (reconfigured.filter (fun nd => nd.running)).map
              (fun nd => Event.restartNode nd.nodeID)
          else []
        let valEvs := created.map (fun s => Event.addValidatorsRPC s.name)
        let chainEvs := created.flatMap (fun s =>
          [Event.waitActiveValidators s.name, Event.createChainsRPC s.name,
            Event.writeSubnet s.name])
        let validatorsToRestart :=
          (created.filter (fun s => s.chains.any (fun c => c.config != ""))).flatMap
            (fun s => s.validatorIDs)
        let chainRestartEvs :=
          if restartRequired && !validatorsToRestart.isEmpty then
            (nodes2.filter (fun nd => validatorsToRestart.contains nd.nodeID)).map
              (fun nd => Event.restartNode nd.nodeID)
          else []
        (evs1 ++ restartEvs ++ valEvs ++ chainEvs ++ chainRestartEvs,
          .ok { net with subnets := subnets2, preFundedKeys := pool2, nodes := nodes2 })

/-- The keys allocated from the pre-funded key pool in a trace, in order. -/
def allocatedKeys (evs : List Event) : List Nat :=
  evs.filterMap (fun e =>
    match e with
    | .allocKey _ k => some k
    | _ => none)

theorem createSubnetsLoop_nil (nextID : Nat) (pool : List Nat) :
    createSubnetsLoop nextID [] pool = ([], .ok ([], pool, [])) := rfl

theorem createSubnetsLoop_cons_eq (nextID : Nat) (s : MSubnet)
    (rest : List MSubnet) (pool : List Nat) :
    createSubnetsLoop nextID (s :: rest) pool =
      (if s.validatorIDs.isEmpty then
        ([], .error ("subnet " ++ toString s.subnetID ++ " needs at least one validator"))
      else if s.subnetID ≠ 0 then
        match createSubnetsLoop nextID rest pool with
        | (evs, .error e) => (evs, .error e)
        | (evs, .ok (rest2, pool2, created)) => (evs, .ok (s :: rest2, pool2, created))
      else
        match s.owningKey, pool.getLast? with
        | none, none =>
          ([], .error ("no pre-funded keys available to create subnet " ++ s.name))
        | none, some key =>
          (match createSubnetsLoop (nextID + 1) rest pool.dropLast with
            | (evs, .error e) =>
              ([Event.allocKey s.name key, Event.createSubnetRPC s.name,
                Event.writeSubnet s.name] ++ evs, .error e)
            | (evs, .ok (rest2, pool2, created)) =>
              ([Event.allocKey s.name key, Event.createSubnetRPC s.name,
                Event.writeSubnet s.name] ++ evs,
                .ok ({ s with owningKey := some key, subnetID := nextID } :: rest2,
                  pool2,
                  { s with owningKey := some key, subnetID := nextID } :: created)))
        | some _, _ =>
          (match createSubnetsLoop (nextID + 1) rest pool with
            | (evs, .error e) =>
              ([Event.createSubnetRPC s.name, Event.writeSubnet s.name] ++ evs, .error e)
            | (evs, .ok (rest2, pool2, created)) =>
              ([Event.createSubnetRPC s.name, Event.writeSubnet s.name] ++ evs,
                .ok ({ s with subnetID := nextID } :: rest2, pool2,
                  { s with subnetID := nextID } :: created)))) := rfl

theorem createSubnetsLoop_cons_noval (nextID : Nat) (s : MSubnet)
    (rest : List MSubnet) (pool : List Nat) (h : s.validatorIDs.isEmpty) :
    createSubnetsLoop nextID (s :: rest) pool
      = ([], .error ("subnet " ++ toString s.subnetID ++ " needs at least one validator")) := by
  rw [createSubnetsLoop_cons_eq, if_pos h]

theorem createSubnetsLoop_cons_skip (nextID : Nat) (s : MSubnet)
    (rest : List MSubnet) (pool : List Nat)
    (hval : ¬s.validatorIDs.isEmpty = true) (hid : s.subnetID ≠ 0) :
    createSubnetsLoop nextID (s :: rest) pool
      = (match createSubnetsLoop nextID rest pool with
          | (evs, .error e) => (evs, .error e)
          | (evs, .ok (rest2, pool2, created)) =>
            (evs, .ok (s :: rest2, pool2, created))) := by
  rw [createSubnetsLoop_cons_eq, if_neg hval, if_pos hid]

theorem createSubnetsLoop_cons_exhausted (nextID : Nat) (s : MSubnet)
    (rest : List MSubnet)
    (hval : ¬s.validatorIDs.isEmpty = true) (hid : s.subnetID = 0)
    (howning : s.owningKey = none) :
    createSubnetsLoop nextID (s :: rest) []
      = ([], .error ("no pre-funded keys available to create subnet " ++ s.name)) := by
  rw [createSubnetsLoop_cons_eq, if_neg hval, if_neg (by simpa using hid), howning]
  rfl

theorem createSubnetsLoop_cons_alloc (nextID : Nat) (s : MSubnet)
    (rest : List MSubnet) (pool : List Nat) (key : Nat)
    (hval : ¬s.validatorIDs.isEmpty = true) (hid : s.subnetID = 0)
    (howning : s.owningKey = none) (hkey : pool.getLast? = some key) :
    createSubnetsLoop nextID (s :: rest) pool
      = (match createSubnetsLoop (nextID + 1) rest pool.dropLast with
          | (evs, .error e) =>
            ([Event.allocKey s.name key, Event.createSubnetRPC s.name,
              Event.writeSubnet s.name] ++ evs, .error e)
          | (evs, .ok (rest2, pool2, created)) =>
            ([Event.allocKey s.name key, Event.createSubnetRPC s.name,
              Event.writeSubnet s.name] ++ evs,
              .ok ({ s with owningKey := some key, subnetID := nextID } :: rest2,
                pool2,
                { s with owningKey := some key, subnetID := nextID } :: created))) := by
  rw [createSubnetsLoop_cons_eq, if_neg hval, if_neg (by simpa using hid), howning, hkey]

theorem createSubnetsLoop_cons_preowned (nextID : Nat) (s : MSubnet)
    (rest : List MSubnet) (pool : List Nat) (key : Nat)
    (hval : ¬s.validatorIDs.isEmpty = true) (hid : s.subnetID = 0)
    (howning : s.owningKey = some key) :
    createSubnetsLoop nextID (s :: rest) pool
      = (match createSubnetsLoop (nextID + 1) rest pool with
          | (evs, .error e) =>
            ([Event.createSubnetRPC s.name, Event.writeSubnet s.name] ++ evs, .error e)
          | (evs, .ok (rest2, pool2, created)) =>
            ([Event.createSubnetRPC s.name, Event.writeSubnet s.name] ++ evs,
              .ok ({ s with subnetID := nextID } :: rest2, pool2,
                { s with subnetID := nextID } :: created))) := by
  rw [createSubnetsLoop_cons_eq, if_neg hval, if_neg (by simpa using hid), howning]

theorem allocatedKeys_append (a b : List Event) :
    allocatedKeys (a ++ b) = allocatedKeys a ++ allocatedKeys b :=
  List.filterMap_append a b _

/-- Every complete or aborted run of the creation loop takes its allocated
keys from the pool: the allocated keys together with some residue permute the
initial pool, and on success that residue is the returned pool. -/
theorem createSubnetsLoop_trace_perm (subnets : List MSubnet) :
    ∀ (nextID : Nat) (pool : List Nat),
      ∃ pool2 : List Nat,
        (allocatedKeys (createSubnetsLoop nextID subnets pool).1 ++ pool2).Perm pool ∧
        ∀ s2 p2 c, (createSubnetsLoop nextID subnets pool).2 = .ok (s2, p2, c) →
          p2 = pool2 := by
  induction subnets with
  | nil =>
    intro nextID pool
    refine ⟨pool, by simp [createSubnetsLoop_nil, allocatedKeys], ?_⟩
    intro s2 p2 c h
    rw [createSubnetsLoop_nil] at h
    simp only [Except.ok.injEq, Prod.mk.injEq] at h
    exact h.2.1.symm
  | cons s rest ih =>
    intro nextID pool
    by_cases hval : s.validatorIDs.isEmpty
    · refine ⟨pool, ?_, ?_⟩
      · rw [createSubnetsLoop_cons_noval nextID s rest pool hval]
        simp [allocatedKeys]
      · intro s2 p2 c h
        rw [createSubnetsLoop_cons_noval nextID s rest pool hval] at h
        simp at h
    · by_cases hid : s.subnetID = 0
      · cases howning : s.owningKey with
        | none =>
          cases hkey : pool.getLast? with
          | none =>
            have hpool : pool = [] := by
              cases pool with
              | nil => rfl
              | cons a t => simp [List.getLast?_concat] at hkey
            subst hpool
            refine ⟨[], ?_, ?_⟩
            · rw [createSubnetsLoop_cons_exhausted nextID s rest hval hid howning]
              simp [allocatedKeys]
            · intro s2 p2 c h
              rw [createSubnetsLoop_cons_exhausted nextID s rest hval hid howning] at h
              simp at h
          | some key =>
            obtain ⟨pool2, hperm, hok⟩ := ih (nextID + 1) pool.dropLast
            have hdecomp : pool.dropLast ++ [key] = pool :=
              List.dropLast_append_getLast? key (by simp [hkey])
            refine ⟨pool2, ?_, ?_⟩
            · rw [createSubnetsLoop_cons_alloc nextID s rest pool key hval hid howning hkey]
              cases hres : createSubnetsLoop (nextID + 1) rest pool.dropLast with
              | mk evs r =>
                rw [hres] at hperm
                have h3 : (key :: pool.dropLast).Perm pool := by
                  have h2 := (List.perm_append_singleton key pool.dropLast).symm
                  rwa [hdecomp] at h2
                have hkeycons :
                    (key :: (allocatedKeys evs ++ pool2)).Perm pool :=
                  (hperm.cons key).trans h3
                cases r with
                | error e =>
                  simpa [allocatedKeys_append, allocatedKeys] using hkeycons
                | ok v =>
                  simpa [allocatedKeys_append, allocatedKeys] using hkeycons
            · intro s2 p2 c h
              rw [createSubnetsLoop_cons_alloc nextID s rest pool key hval hid howning hkey] at h
              cases hres : createSubnetsLoop (nextID + 1) rest pool.dropLast with
              | mk evs r =>
                rw [hres] at h hok
                cases r with
                | error e => simp at h
                | ok v =>
                  obtain ⟨rest2, pool3, created⟩ := v
                  simp only [Except.ok.injEq, Prod.mk.injEq] at h
                  exact h.2.1.symm.trans (hok _ _ _ rfl)
        | some key0 =>
          obtain ⟨pool2, hperm, hok⟩ := ih (nextID + 1) pool
          refine ⟨pool2, ?_, ?_⟩
          · rw [createSubnetsLoop_cons_preowned nextID s rest pool key0 hval hid howning]
            cases hres : createSubnetsLoop (nextID + 1) rest pool with
            | mk evs r =>
              rw [hres] at hperm
              cases r with
              | error e => simpa [allocatedKeys_append, allocatedKeys] using hperm
              | ok v => simpa [allocatedKeys_append, allocatedKeys] using hperm
          · intro s2 p2 c h
            rw [createSubnetsLoop_cons_preowned nextID s rest pool key0 hval hid howning] at h
            cases hres : createSubnetsLoop (nextID + 1) rest pool with
            | mk evs r =>
              rw [hres] at h hok
              cases r with
              | error e => simp at h
              | ok v =>
                obtain ⟨rest2, pool3, created⟩ := v
                simp only [Except.ok.injEq, Prod.mk.injEq] at h
                exact h.2.1.symm.trans (hok _ _ _ rfl)
      · have hid2 : s.subnetID ≠ 0 := hid
        obtain ⟨pool2, hperm, hok⟩ := ih nextID pool
        refine ⟨pool2, ?_, ?_⟩
        · rw [createSubnetsLoop_cons_skip nextID s rest pool hval hid2]
          cases hres : createSubnetsLoop nextID rest pool with
          | mk evs r =>
            rw [hres] at hperm
            cases r with
            | error e => exact hperm
            | ok v => exact hperm
        · intro s2 p2 c h
          rw [createSubnetsLoop_cons_skip nextID s rest pool hval hid2] at h
          cases hres : createSubnetsLoop nextID rest pool with
          | mk evs r =>
            rw [hres] at h hok
            cases r with
            | error e => simp at h
            | ok v =>
              obtain ⟨rest2, pool3, created⟩ := v
              simp only [Except.ok.injEq, Prod.mk.injEq] at h
              exact h.2.1.symm.trans (hok _ _ _ rfl)

/-- When every subnet already has an id and validators, the creation loop
issues no effect and changes nothing. -/
theorem createSubnetsLoop_all_skipped (nextID : Nat) (subnets : List MSubnet)
    (pool : List Nat)
    (hall : ∀ s ∈ subnets, s.subnetID ≠ 0 ∧ s.validatorIDs ≠ []) :
    createSubnetsLoop nextID subnets pool = ([], .ok (subnets, pool, [])) := by
  induction subnets with
  | nil => rfl
  | cons s rest ih =>
    obtain ⟨hid, hval⟩ := hall s (List.mem_cons_self s rest)
    have hvalb : ¬s.validatorIDs.isEmpty = true := by
      simpa [List.isEmpty_iff] using hval
    rw [createSubnetsLoop_cons_skip nextID s rest pool hvalb hid,
      ih (fun t ht => hall t (List.mem_cons_of_mem s ht))]

/-- C8: CreateSubnets is reentrant. On a network in which every subnet has a
non-empty SubnetID and a non-empty validator list, a second invocation skips
every subnet, allocates no key, issues no RPC or other effect, mutates no node
flags, and returns the network unchanged. -/
theorem createSubnets_reentrant (net : MNetwork) (nextID : Nat)
    (restartRequired : Bool)
    (hall : ∀ s ∈ net.subnets, s.subnetID ≠ 0 ∧ s.validatorIDs ≠ []) :
    createSubnets net nextID restartRequired = ([], .ok net) := by
  unfold createSubnets
  rw [createSubnetsLoop_all_skipped nextID net.subnets net.preFundedKeys hall]
  rfl

/-- Witness for C8 at a concrete network whose single subnet is already
created: a (re-)invocation is a no-op. -/
theorem createSubnets_reentrant_witness :
    createSubnets ⟨[⟨"w", 7, [1], some 5, []⟩], [3], [⟨1, [], true⟩]⟩ 9 true
      = ([], .ok ⟨[⟨"w", 7, [1], some 5, []⟩], [3], [⟨1, [], true⟩]⟩) :=
  createSubnets_reentrant ⟨[⟨"w", 7, [1], some 5, []⟩], [3], [⟨1, [], true⟩]⟩ 9 true
    (by decide)

/-- C5: subnet creation allocates owning keys exclusively from the end of the
pre-funded key pool: over any run the allocated keys and the remaining pool
partition the initial pool (so the pool shrinks by exactly one per allocation
and, when the initial pool has no duplicates, no two subnets are assigned the
same key, in complete and in aborted runs alike), and a keyless uncreated
subnet facing an empty pool fails with the pool-exhaustion error with no
effect issued for it. -/
theorem createSubnets_key_pool_exclusive (nextID : Nat) (subnets : List MSubnet)
    (pool : List Nat) :
    (∀ evs subnets2 pool2 created,
      createSubnetsLoop nextID subnets pool = (evs, .ok (subnets2, pool2, created)) →
        (allocatedKeys evs ++ pool2).Perm pool ∧
        pool2.length + (allocatedKeys evs).length = pool.length ∧
        (pool.Nodup → (allocatedKeys evs).Nodup)) ∧
    (∀ evs e,
      createSubnetsLoop nextID subnets pool = (evs, .error e) →
        pool.Nodup → (allocatedKeys evs).Nodup) ∧
    (∀ s rest2, s.owningKey = none → s.subnetID = 0 → ¬s.validatorIDs.isEmpty →
      createSubnetsLoop nextID (s :: rest2) []
        = ([], .error ("no pre-funded keys available to create subnet " ++ s.name))) := by
  refine ⟨?_, ?_, ?_⟩
  · intro evs subnets2 pool2 created h
    obtain ⟨pool3, hperm, hok⟩ := createSubnetsLoop_trace_perm subnets nextID pool
    rw [h] at hperm hok
    have hpool : pool2 = pool3 := hok subnets2 pool2 created rfl
    subst hpool
    refine ⟨hperm, ?_, ?_⟩
    · have := hperm.length_eq
      simp only [List.length_append] at this
      omega
    · intro hnodup
      have h2 : (allocatedKeys evs ++ pool2).Nodup :=
        (hperm.nodup_iff).mpr hnodup
      exact h2.of_append_left
  · intro evs e h hnodup
    obtain ⟨pool3, hperm, _⟩ := createSubnetsLoop_trace_perm subnets nextID pool
    rw [h] at hperm
    have h2 : (allocatedKeys evs ++ pool3).Nodup :=
      (hperm.nodup_iff).mpr hnodup
    exact h2.of_append_left
  · intro s rest2 howning hid hval
    exact createSubnetsLoop_cons_exhausted nextID s rest2 hval hid howning

/-- Witness for C5 at Scenario C: a pool of one key and two keyless subnets;
the first subnet allocates the key and is created, the second fails with the
pool-exhaustion error before any RPC for it, and the allocated keys of the
aborted run have no duplicates. -/
theorem createSubnets_key_pool_exclusive_witness :
    createSubnetsLoop 1 [⟨"s1", 0, [1], none, []⟩, ⟨"s2", 0, [1], none, []⟩] [5]
      = ([.allocKey "s1" 5, .createSubnetRPC "s1", .writeSubnet "s1"],
         .error "no pre-funded keys available to create subnet s2") ∧
    (allocatedKeys
        [.allocKey "s1" 5, .createSubnetRPC "s1", .writeSubnet "s1"]).Nodup := by
  refine ⟨by rfl, ?_⟩
  exact (createSubnets_key_pool_exclusive 1
    [⟨"s1", 0, [1], none, []⟩, ⟨"s2", 0, [1], none, []⟩] [5]).2.1
    [.allocKey "s1" 5, .createSubnetRPC "s1", .writeSubnet "s1"]
    "no pre-funded keys available to create subnet s2" (by rfl) (by decide)

/-- The creation loop fails whenever some subnet lists no validators. -/
theorem createSubnetsLoop_error_of_missing_validators (subnets : List MSubnet) :
    ∀ (nextID : Nat) (pool : List Nat),
      (∃ s ∈ subnets, s.validatorIDs = []) →
      ∃ evs e, createSubnetsLoop nextID subnets pool = (evs, .error e) := by
  induction subnets with
  | nil =>
    intro nextID pool h
    simp at h
  | cons s rest ih =>
    intro nextID pool h
    by_cases hval : s.validatorIDs.isEmpty
    · exact ⟨_, _, createSubnetsLoop_cons_noval nextID s rest pool hval⟩
    · have hbad : ∃ t ∈ rest, t.validatorIDs = [] := by
        obtain ⟨t, ht, ht2⟩ := h
        rcases List.mem_cons.mp ht with h1 | h1
        · exfalso
          subst h1
          rw [ht2] at hval
          simp at hval
        · exact ⟨t, h1, ht2⟩
      by_cases hid : s.subnetID = 0
      · cases howning : s.owningKey with
        | none =>
          cases hkey : pool.getLast? with
          | none =>
            have hpool : pool = [] := by
              cases pool with
              | nil => rfl
              | cons a t => simp [List.getLast?_concat] at hkey
            subst hpool
            exact ⟨_, _, createSubnetsLoop_cons_exhausted nextID s rest hval hid howning⟩
          | some key =>
            obtain ⟨evs, e, hres⟩ := ih (nextID + 1) pool.dropLast hbad
            refine ⟨[Event.allocKey s.name key, Event.createSubnetRPC s.name,
              Event.writeSubnet s.name] ++ evs, e, ?_⟩
            rw [createSubnetsLoop_cons_alloc nextID s rest pool key hval hid howning hkey,
              hres]
        | some key0 =>
          obtain ⟨evs, e, hres⟩ := ih (nextID + 1) pool hbad
          refine ⟨[Event.createSubnetRPC s.name, Event.writeSubnet s.name] ++ evs, e, ?_⟩
          rw [createSubnetsLoop_cons_preowned nextID s rest pool key0 hval hid howning,
            hres]
      · have hid2 : s.subnetID ≠ 0 := hid
        obtain ⟨evs, e, hres⟩ := ih nextID pool hbad
        refine ⟨evs, e, ?_⟩
        rw [createSubnetsLoop_cons_skip nextID s rest pool hval hid2, hres]

/-- C10 counterexample: a network whose first subnet is valid and uncreated
and whose second subnet lists no validators. CreateSubnets issues the creation
RPC for the first subnet and only then returns the configuration error, so it
does not fail before creating anything. -/
theorem createSubnets_creates_before_validator_error :
    createSubnets ⟨[⟨"s1", 0, [1], none, []⟩, ⟨"s2", 5, [], none, []⟩], [7], []⟩ 1 true
      = ([.allocKey "s1" 7, .createSubnetRPC "s1", .writeSubnet "s1"],
         .error "subnet 5 needs at least one validator") ∧
    Event.createSubnetRPC "s1" ∈
      (createSubnets ⟨[⟨"s1", 0, [1], none, []⟩, ⟨"s2", 5, [], none, []⟩], [7], []⟩
        1 true).1 := by
  constructor
  · rfl
  · decide

/-- C10 (amended): a network containing a subnet with an empty validator list
always makes CreateSubnets return an error — the missing-validator check is
applied before the already-created skip, so even a subnet whose SubnetID is
set triggers it, and when the offending subnet is first in the roster the
error is returned with no effect issued at all; however, valid uncreated
subnets earlier in the roster are created before the error is reached. -/
theorem createSubnets_missing_validator_error (net : MNetwork) (nextID : Nat)
    (restartRequired : Bool)
    (hbad : ∃ s ∈ net.subnets, s.validatorIDs = []) :
    (∃ evs e, createSubnets net nextID restartRequired = (evs, .error e)) ∧
    (∀ s rest, net.subnets = s :: rest → s.validatorIDs = [] →
      createSubnets net nextID restartRequired
        = ([], .error ("subnet " ++ toString s.subnetID ++ " needs at least one validator"))) := by
  constructor
  · obtain ⟨evs, e, hres⟩ :=
      createSubnetsLoop_error_of_missing_validators net.subnets nextID
        net.preFundedKeys hbad
    refine ⟨evs, e, ?_⟩
    unfold createSubnets
    rw [hres]
  · intro s rest hsub hval
    have hvalb : s.validatorIDs.isEmpty = true := by
      rw [hval]
      rfl
    unfold createSubnets
    rw [hsub, createSubnetsLoop_cons_noval nextID s rest net.preFundedKeys hvalb]

/-- Witness for the amended C10 at a concrete network whose only subnet is
already created but lists no validators: the call fails immediately. -/
theorem createSubnets_missing_validator_error_witness :
    createSubnets ⟨[⟨"x", 3, [], none, []⟩], [2], []⟩ 1 false
      = ([], .error "subnet 3 needs at least one validator") :=
  (createSubnets_missing_validator_error ⟨[⟨"x", 3, [], none, []⟩], [2], []⟩ 1 false
    ⟨⟨"x", 3, [], none, []⟩, by decide, rfl⟩).2
    ⟨"x", 3, [], none, []⟩ [] rfl rfl

theorem updateTrackedSubnets_length (subnets : List MSubnet) :
    ∀ (nodes nodes2 reconfigured : List MNode),
      updateTrackedSubnets subnets nodes = .ok (nodes2, reconfigured) →
      nodes2.length = nodes.length := by
  intro nodes
  induction nodes with
  | nil =>
    intro nodes2 reconfigured h
    simp only [updateTrackedSubnets, Except.ok.injEq, Prod.mk.injEq] at h
    rw [← h.1]
  | cons nd rest ih =>
    intro nodes2 reconfigured h
    simp only [updateTrackedSubnets] at h
    cases h1 : getStringVal nd.flags TrackSubnetsKey with
    | error e => rw [h1] at h; simp at h
    | ok existing =>
      rw [h1] at h
      cases h2 : updateTrackedSubnets subnets rest with
      | error e => rw [h2] at h; simp at h
      | ok v =>
        obtain ⟨rest2, reconf⟩ := v
        rw [h2] at h
        have hlen := ih rest2 reconf h2
        dsimp only at h
        split at h <;>
          (simp only [Except.ok.injEq, Prod.mk.injEq] at h
           rw [← h.1]
           simp [hlen])

theorem createSubnets_ok_nodes_length (net : MNetwork) (nextID : Nat)
    (restartRequired : Bool) (evs : List Event) (net2 : MNetwork)
    (h : createSubnets net nextID restartRequired = (evs, .ok net2)) :
    net2.nodes.length = net.nodes.length := by
  unfold createSubnets at h
  cases hres : createSubnetsLoop nextID net.subnets net.preFundedKeys with
  | mk evs1 r =>
    rw [hres] at h
    cases r with
    | error e => simp at h
    | ok v =>
      obtain ⟨subnets2, pool2, created⟩ := v
      dsimp only at h
      by_cases hc : created.isEmpty
      · rw [if_pos hc] at h
        simp only [Prod.mk.injEq, Except.ok.injEq] at h
        rw [← h.2]
      · rw [if_neg hc] at h
        cases h3 : updateTrackedSubnets subnets2 net.nodes with
        | error e => rw [h3] at h; simp at h
        | ok v2 =>
          obtain ⟨nodes2, reconfigured⟩ := v2
          rw [h3] at h
          simp only [Prod.mk.injEq, Except.ok.injEq] at h
          rw [← h.2]
          exact updateTrackedSubnets_length subnets2 net.nodes nodes2 reconfigured h3

/-- Bootstrap: start the network for the first time. With no subnets all nodes
are started and no flag is mutated. Otherwise node 0 is the bootstrap node:
with more than one node, the current sybil-protection flag value is read (its
default is true; an unreadable value is an error) to decide whether it must be
re-enabled later, and the flag is forced to false before node 0 starts; the
subnets are then created through node 0 with restartRequired false; when sybil
protection was previously enabled the flag key is deleted from node 0's flag
map; finally node 0 is stopped and restarted, and with more than one node the
remaining nodes are started. An empty node roster is modelled as an error (the
source would panic indexing Nodes[0]); the node process starts and health
waits are external to the state modelled here. -/
def bootstrap (net : MNetwork) (nextID : Nat) : List Event × Except String MNetwork :=
  if net.subnets.isEmpty then ([], .ok net)
  else
    match net.nodes with
    | [] => ([], .error "no nodes")
    | node0 :: rest =>
      let setup : Except String (Bool × MNode) :=
        if rest.isEmpty then .ok (false, node0)
        else
          match getBoolVal node0.flags SybilProtectionEnabledKey true with
          | .error e => .error ("failed to read sybil protection flag: " ++ e)
          | .ok reEnable =>
            .ok (reEnable,
              { node0 with
                flags := setFlag node0.flags SybilProtectionEnabledKey (.bool false) })
      match setup with
      | .error e => ([], .error e)
      | .ok (reEnable, node0b) =>
        match createSubnets { net with nodes := node0b :: rest } nextID false with
        | (evs, .error e) => (evs, .error e)
        | (evs, .ok net2) =>
          let net3 :=
            if reEnable then
              match net2.nodes with
              | [] => net2
              | m0 :: mrest =>
                { net2 with nodes :=
                    { m0 with
                      flags := eraseFlag m0.flags SybilProtectionEnabledKey } :: mrest }
            else net2
          (evs ++ [Event.restartNode node0b.nodeID], .ok net3)

/-- C2 counterexample: a two-node network with one already-created subnet
whose bootstrap node flags explicitly disable sybil protection. Bootstrap
keeps the false value (reEnableSybilProtection is false), so at the moment
node 0 is restarted its flag map still forces sybil protection off, refuting
the claim for every such bootstrap run. -/
theorem bootstrap_sybil_stays_disabled_counterexample :
    bootstrap
        ⟨[⟨"s", 4, [1], some 9, []⟩], [],
          [⟨1, [(SybilProtectionEnabledKey, .bool false)], true⟩, ⟨2, [], true⟩]⟩ 1
      = ([Event.restartNode 1],
         .ok ⟨[⟨"s", 4, [1], some 9, []⟩], [],
           [⟨1, [(SybilProtectionEnabledKey, .bool false)], true⟩, ⟨2, [], true⟩]⟩) ∧
    flagGet [(SybilProtectionEnabledKey, FlagVal.bool false)] SybilProtectionEnabledKey
      = some (.bool false) := by
  constructor
  · rfl
  · rfl

/-- C2 (amended): for every network with at least one subnet and more than one
node, when the bootstrap node's flags did not already disable sybil protection
(the flag is absent or true), Bootstrap re-enables sybil protection by
deleting the key from node 0's flag map after subnet creation, so at the
moment node 0 is restarted its flag map no longer binds the sybil-protection
key at all; when the caller had pre-set the flag to false, the false value is
retained. -/
theorem bootstrap_reenables_sybil_protection (net : MNetwork) (nextID : Nat)
    (node0 : MNode) (rest : List MNode) (evs : List Event) (net2 : MNetwork)
    (hsub : ¬net.subnets.isEmpty)
    (hnodes : net.nodes = node0 :: rest)
    (hrest : ¬rest.isEmpty)
    (hwasEnabled : getBoolVal node0.flags SybilProtectionEnabledKey true = .ok true)
    (hok : bootstrap net nextID = (evs, .ok net2)) :
    ∃ m0 mrest, net2.nodes = m0 :: mrest ∧
      flagGet m0.flags SybilProtectionEnabledKey = none := by
  unfold bootstrap at hok
  rw [if_neg hsub, hnodes] at hok
  dsimp only at hok
  rw [if_neg hrest, hwasEnabled] at hok
  dsimp only at hok
  cases hres : createSubnets
      { net with nodes :=
          { node0 with
            flags := setFlag node0.flags SybilProtectionEnabledKey (.bool false) } :: rest }
      nextID false with
  | mk evs1 r =>
    rw [hres] at hok
    cases r with
    | error e => simp at hok
    | ok netMid =>
      dsimp only at hok
      rw [if_pos rfl] at hok
      have hlen : netMid.nodes.length = rest.length + 1 := by
        have := createSubnets_ok_nodes_length _ nextID false evs1 netMid hres
        simpa using this
      cases hmid : netMid.nodes with
      | nil => rw [hmid] at hlen; simp at hlen
      | cons m0 mrest =>
        rw [hmid] at hok
        dsimp only at hok
        simp only [Prod.mk.injEq, Except.ok.injEq] at hok
        refine ⟨{ m0 with flags := eraseFlag m0.flags SybilProtectionEnabledKey },
          mrest, ?_, ?_⟩
        · rw [← hok.2]
        · exact flagGet_eraseFlag_self m0.flags SybilProtectionEnabledKey

/-- Witness for the amended C2: a two-node network with one created subnet and
no sybil flag set on node 0; after bootstrap the restarted node 0 carries no
sybil-protection binding. -/
theorem bootstrap_reenables_sybil_protection_witness :
    ∃ m0 mrest,
      (MNetwork.nodes ⟨[⟨"s", 4, [1], some 9, []⟩], [], [⟨1, [], true⟩, ⟨2, [], true⟩]⟩)
        = m0 :: mrest ∧
      flagGet m0.flags SybilProtectionEnabledKey = none :=
  bootstrap_reenables_sybil_protection
    ⟨[⟨"s", 4, [1], some 9, []⟩], [], [⟨1, [], true⟩, ⟨2, [], true⟩]⟩ 1
    ⟨1, [], true⟩ [⟨2, [], true⟩] [Event.restartNode 1]
    ⟨[⟨"s", 4, [1], some 9, []⟩], [], [⟨1, [], true⟩, ⟨2, [], true⟩]⟩
    (by decide) rfl (by decide) (by rfl) (by rfl)

/-- One polling round of waitForHealthy: query each still-unhealthy node in
iteration order; a query error aborts the round immediately; a node reporting
healthy is removed from the set and an unhealthy one is kept. Returns the
queried nodes in order together with the error or the remaining set. -/
def pollRound (healthAfter : Nat → Except String Bool) :
    List Nat → List Nat × Except String (List Nat)
  | [] => ([], .ok [])
  | x :: rest =>
    match healthAfter x with
    | .error e => ([x], .error e)
    | .ok true =>
      match pollRound healthAfter rest with
      | (q, r) => (x :: q, r)
    | .ok false =>
      match pollRound healthAfter rest with
      | (q, .error e) => (x :: q, .error e)
      | (q, .ok rem) => (x :: q, .ok (x :: rem))

/-- The polling loop of waitForHealthy. The health oracle is indexed by round
and node; the context deadline is the fuel of remaining ticks: the first round
runs immediately, success is returned as soon as a round ends with an empty
set, and when the set is still non-empty with the fuel exhausted the context
expiry produces the timeout error. Returns the (round, node) query trace with
the outcome. -/
def waitLoop (health : Nat → Nat → Except String Bool) :
    Nat → Nat → List Nat → List (Nat × Nat) × Except String Unit
  | 0, round, unhealthy =>
    (match pollRound (health round) unhealthy with
      | (q, .error e) => (q.map (fun x => (round, x)), .error e)
      | (q, .ok rem) =>
        if rem.isEmpty then (q.map (fun x => (round, x)), .ok ())
        else (q.map (fun x => (round, x)),
          .error "failed to see all nodes healthy before timeout"))
  | fuel + 1, round, unhealthy =>
    (match pollRound (health round) unhealthy with
      | (q, .error e) => (q.map (fun x => (round, x)), .error e)
      | (q, .ok rem) =>
        if rem.isEmpty then (q.map (fun x => (round, x)), .ok ())
        else
          match waitLoop health fuel (round + 1) rem with
          | (qs, r) => (q.map (fun x => (round, x)) ++ qs, r))

/-- waitForHealthy: seeds the unhealthy set with the given nodes (a set, so
duplicates collapse) and polls from round 0 until the set empties, a query
errors, or the deadline passes. -/
def waitForHealthy (health : Nat → Nat → Except String Bool) (fuel : Nat)
    (nodes : List Nat) : List (Nat × Nat) × Except String Unit :=
  waitLoop health fuel 0 nodes.dedup

/-- The still-unhealthy set remaining after k error-free polling rounds
starting at the given round index. -/
def healthyIter (healthB : Nat → Nat → Bool) : Nat → Nat → List Nat → List Nat
  | 0, _round, unhealthy => unhealthy
  | k + 1, round, unhealthy =>
    healthyIter healthB k (round + 1) (unhealthy.filter (fun x => !healthB round x))

theorem pollRound_cons (healthAfter : Nat → Except String Bool) (z : Nat)
    (rest : List Nat) :
    pollRound healthAfter (z :: rest) =
      (match healthAfter z with
        | .error e => ([z], .error e)
        | .ok true =>
          match pollRound healthAfter rest with
          | (q, r) => (z :: q, r)
        | .ok false =>
          match pollRound healthAfter rest with
          | (q, .error e) => (z :: q, .error e)
          | (q, .ok rem) => (z :: q, .ok (z :: rem))) := rfl

theorem pollRound_no_error (healthAfter : Nat → Except String Bool)
    (healthB : Nat → Bool) (hok : ∀ x, healthAfter x = .ok (healthB x))
    (u : List Nat) :
    pollRound healthAfter u = (u, .ok (u.filter (fun x => !healthB x))) := by
  induction u with
  | nil => rfl
  | cons x rest ih =>
    rw [pollRound_cons, hok x, ih]
    cases hb : healthB x <;> simp [List.filter_cons, hb]

theorem pollRound_error (healthAfter : Nat → Except String Bool)
    (pre post : List Nat) (x : Nat) (e : String)
    (hpre : ∀ y ∈ pre, ∃ b, healthAfter y = .ok b)
    (hx : healthAfter x = .error e) :
    pollRound healthAfter (pre ++ x :: post) = (pre ++ [x], .error e) := by
  induction pre with
  | nil =>
    rw [List.nil_append, pollRound_cons, hx]
    rfl
  | cons y rest ih =>
    obtain ⟨b, hb⟩ := hpre y (List.mem_cons_self y rest)
    have ih2 := ih (fun z hz => hpre z (List.mem_cons_of_mem y hz))
    rw [List.cons_append, pollRound_cons, hb, ih2]
    cases b <;> rfl

theorem pollRound_keeps_false (healthAfter : Nat → Except String Bool) :
    ∀ (u : List Nat) (y : Nat) (rem : List Nat),
      y ∈ u → healthAfter y = .ok false → (pollRound healthAfter u).2 = .ok rem →
      y ∈ rem := by
  intro u
  induction u with
  | nil =>
    intro y rem hy
    simp at hy
  | cons z rest ih =>
    intro y rem hy hfalse hres
    rw [pollRound_cons] at hres
    cases hz : healthAfter z with
    | error e =>
      rw [hz] at hres
      simp at hres
    | ok b =>
      rw [hz] at hres
      cases hrest : pollRound healthAfter rest with
      | mk q r =>
        rw [hrest] at hres
        cases b with
        | true =>
          have hyz : y ≠ z := by
            intro hcontra
            rw [hcontra, hz] at hfalse
            simp at hfalse
          have hymem : y ∈ rest := by
            rcases List.mem_cons.mp hy with h1 | h1
            · exact absurd h1 hyz
            · exact h1
          dsimp only at hres
          exact ih y rem hymem hfalse (by rw [hrest]; exact hres)
        | false =>
          cases r with
          | error e =>
            dsimp only at hres
            simp at hres
          | ok rem2 =>
            dsimp only at hres
            have hrem : rem = z :: rem2 := by
              cases hres
              rfl
            subst hrem
            rcases List.mem_cons.mp hy with h1 | h1
            · exact h1 ▸ List.mem_cons_self z rem2
            · exact List.mem_cons_of_mem z
                (ih y rem2 h1 hfalse (by rw [hrest]))

theorem waitLoop_zero_eq (health : Nat → Nat → Except String Bool) (round : Nat)
    (u : List Nat) :
    waitLoop health 0 round u =
      (match pollRound (health round) u with
        | (q, .error e) => (q.map (fun x => (round, x)), .error e)
        | (q, .ok rem) =>
          if rem.isEmpty then (q.map (fun x => (round, x)), .ok ())
          else (q.map (fun x => (round, x)),
            .error "failed to see all nodes healthy before timeout")) := rfl

theorem waitLoop_succ_eq (health : Nat → Nat → Except String Bool)
    (fuel round : Nat) (u : List Nat) :
    waitLoop health (fuel + 1) round u =
      (match pollRound (health round) u with
        | (q, .error e) => (q.map (fun x => (round, x)), .error e)
        | (q, .ok rem) =>
          if rem.isEmpty then (q.map (fun x => (round, x)), .ok ())
          else
            match waitLoop health fuel (round + 1) rem with
            | (qs, r) => (q.map (fun x => (round, x)) ++ qs, r)) := rfl

theorem healthyIter_zero (healthB : Nat → Nat → Bool) (round : Nat)
    (u : List Nat) : healthyIter healthB 0 round u = u := rfl

theorem healthyIter_succ (healthB : Nat → Nat → Bool) (k round : Nat)
    (u : List Nat) :
    healthyIter healthB (k + 1) round u
      = healthyIter healthB k (round + 1) (u.filter (fun x => !healthB round x)) := rfl

theorem healthyIter_subset (healthB : Nat → Nat → Bool) :
    ∀ (k round : Nat) (u : List Nat) (x : Nat),
      x ∈ healthyIter healthB k round u → x ∈ u := by
  intro k
  induction k with
  | zero => intro round u x h; exact h
  | succ k2 ih =>
    intro round u x h
    rw [healthyIter_succ] at h
    exact List.mem_of_mem_filter (ih (round + 1) _ x h)

theorem healthyIter_mem_false (healthB : Nat → Nat → Bool) :
    ∀ (k round : Nat) (u : List Nat) (x : Nat),
      x ∈ healthyIter healthB k round u →
      ∀ j, j < k → healthB (round + j) x = false := by
  intro k
  induction k with
  | zero => intro round u x _ j hj; omega
  | succ k2 ih =>
    intro round u x h j hj
    rw [healthyIter_succ] at h
    cases j with
    | zero =>
      have hmem := healthyIter_subset healthB k2 (round + 1) _ x h
      have := (List.mem_filter.mp hmem).2
      simpa using this
    | succ j2 =>
      have := ih (round + 1) _ x h j2 (by omega)
      have harith : round + 1 + j2 = round + (j2 + 1) := by omega
      rwa [harith] at this

theorem waitLoop_ok_iff (health : Nat → Nat → Except String Bool)
    (healthB : Nat → Nat → Bool)
    (hok : ∀ r x, health r x = .ok (healthB r x)) :
    ∀ (fuel round : Nat) (u : List Nat),
      (waitLoop health fuel round u).2 = .ok () ↔
        ∃ k, k ≤ fuel + 1 ∧ healthyIter healthB k round u = [] := by
  intro fuel
  induction fuel with
  | zero =>
    intro round u
    rw [waitLoop_zero_eq,
      pollRound_no_error (health round) (healthB round) (fun x => hok round x) u]
    dsimp only
    by_cases hemp : (u.filter (fun x => !healthB round x)).isEmpty
    · rw [if_pos hemp]
      constructor
      · intro _
        exact ⟨1, le_refl 1, by
          rw [healthyIter_succ, healthyIter_zero]
          exact List.isEmpty_iff.mp hemp⟩
      · intro _
        rfl
    · rw [if_neg hemp]
      constructor
      · intro h
        simp at h
      · rintro ⟨k, hk, hiter⟩
        exfalso
        rcases Nat.le_one_iff_eq_zero_or_eq_one.mp hk with h0 | h1
        · subst h0
          rw [healthyIter_zero] at hiter
          apply hemp
          rw [hiter]
          rfl
        · subst h1
          rw [healthyIter_succ, healthyIter_zero] at hiter
          apply hemp
          rw [hiter]
          rfl
  | succ fuel ih =>
    intro round u
    rw [waitLoop_succ_eq,
      pollRound_no_error (health round) (healthB round) (fun x => hok round x) u]
    dsimp only
    by_cases hemp : (u.filter (fun x => !healthB round x)).isEmpty
    · rw [if_pos hemp]
      constructor
      · intro _
        exact ⟨1, by omega, by
          rw [healthyIter_succ, healthyIter_zero]
          exact List.isEmpty_iff.mp hemp⟩
      · intro _
        rfl
    · rw [if_neg hemp]
      cases hres : waitLoop health fuel (round + 1)
          (u.filter (fun x => !healthB round x)) with
      | mk qs r =>
        dsimp only
        have ihr := ih (round + 1) (u.filter (fun x => !healthB round x))
        rw [hres] at ihr
        dsimp only at ihr
        constructor
        · intro h
          obtain ⟨k, hk, hiter⟩ := ihr.mp h
          exact ⟨k + 1, by omega, by rwa [healthyIter_succ]⟩
        · rintro ⟨k, hk, hiter⟩
          cases k with
          | zero =>
            exfalso
            rw [healthyIter_zero] at hiter
            apply hemp
            rw [hiter]
            rfl
          | succ k2 =>
            apply ihr.mpr
            exact ⟨k2, by omega, by rwa [healthyIter_succ] at hiter⟩

theorem waitLoop_fail_timeout (health : Nat → Nat → Except String Bool)
    (healthB : Nat → Nat → Bool)
    (hok : ∀ r x, health r x = .ok (healthB r x)) :
    ∀ (fuel round : Nat) (u : List Nat),
      (waitLoop health fuel round u).2 ≠ .ok () →
      (waitLoop health fuel round u).2
        = .error "failed to see all nodes healthy before timeout" := by
  intro fuel
  induction fuel with
  | zero =>
    intro round u h
    rw [waitLoop_zero_eq,
      pollRound_no_error (health round) (healthB round) (fun x => hok round x) u] at h ⊢
    dsimp only at h ⊢
    by_cases hemp : (u.filter (fun x => !healthB round x)).isEmpty
    · rw [if_pos hemp] at h
      exact absurd rfl h
    · rw [if_neg hemp]
  | succ fuel ih =>
    intro round u h
    rw [waitLoop_succ_eq,
      pollRound_no_error (health round) (healthB round) (fun x => hok round x) u] at h ⊢
    dsimp only at h ⊢
    by_cases hemp : (u.filter (fun x => !healthB round x)).isEmpty
    · rw [if_pos hemp] at h
      exact absurd rfl h
    · rw [if_neg hemp] at h ⊢
      cases hres : waitLoop health fuel (round + 1)
          (u.filter (fun x => !healthB round x)) with
      | mk qs r =>
        rw [hres] at h
        dsimp only at h ⊢
        have := ih (round + 1) (u.filter (fun x => !healthB round x))
        rw [hres] at this
        dsimp only at this
        exact this h

theorem waitLoop_trace_mem (health : Nat → Nat → Except String Bool)
    (healthB : Nat → Nat → Bool)
    (hok : ∀ r x, health r x = .ok (healthB r x)) :
    ∀ (fuel round : Nat) (u : List Nat) (r x : Nat),
      (r, x) ∈ (waitLoop health fuel round u).1 →
      round ≤ r ∧ x ∈ healthyIter healthB (r - round) round u := by
  intro fuel
  induction fuel with
  | zero =>
    intro round u r x h
    rw [waitLoop_zero_eq,
      pollRound_no_error (health round) (healthB round) (fun x => hok round x) u] at h
    dsimp only at h
    have hmem : (r, x) ∈ u.map (fun y => (round, y)) := by
      by_cases hemp : (u.filter (fun y => !healthB round y)).isEmpty
      · rwa [if_pos hemp] at h
      · rwa [if_neg hemp] at h
    obtain ⟨y, hy, heq⟩ := List.mem_map.mp hmem
    obtain ⟨h1, h2⟩ := Prod.mk.injEq .. ▸ heq
    refine ⟨by omega, ?_⟩
    have : r - round = 0 := by omega
    rw [this, healthyIter_zero]
    rwa [← h2]
  | succ fuel ih =>
    intro round u r x h
    rw [waitLoop_succ_eq,
      pollRound_no_error (health round) (healthB round) (fun x => hok round x) u] at h
    dsimp only at h
    by_cases hemp : (u.filter (fun y => !healthB round y)).isEmpty
    · rw [if_pos hemp] at h
      obtain ⟨y, hy, heq⟩ := List.mem_map.mp h
      obtain ⟨h1, h2⟩ := Prod.mk.injEq .. ▸ heq
      refine ⟨by omega, ?_⟩
      have : r - round = 0 := by omega
      rw [this, healthyIter_zero]
      rwa [← h2]
    · rw [if_neg hemp] at h
      cases hres : waitLoop health fuel (round + 1)
          (u.filter (fun y => !healthB round y)) with
      | mk qs r2 =>
        rw [hres] at h
        dsimp only at h
        rcases List.mem_append.mp h with h1 | h1
        · obtain ⟨y, hy, heq⟩ := List.mem_map.mp h1
          obtain ⟨hh1, hh2⟩ := Prod.mk.injEq .. ▸ heq
          refine ⟨by omega, ?_⟩
          have : r - round = 0 := by omega
          rw [this, healthyIter_zero]
          rwa [← hh2]
        · have := ih (round + 1) (u.filter (fun y => !healthB round y)) r x
            (by rw [hres]; exact h1)
          obtain ⟨hle, hmem⟩ := this
          refine ⟨by omega, ?_⟩
          have harith : r - round = (r - (round + 1)) + 1 := by omega
          rw [harith, healthyIter_succ]
          exact hmem

theorem waitLoop_trace_prefix (health : Nat → Nat → Except String Bool)
    (healthB : Nat → Nat → Bool)
    (hok : ∀ r x, health r x = .ok (healthB r x)) :
    ∀ (fuel round : Nat) (u : List Nat),
      ∃ t, (waitLoop health fuel round u).1
        = u.map (fun x => (round, x)) ++ t := by
  intro fuel
  induction fuel with
  | zero =>
    intro round u
    rw [waitLoop_zero_eq,
      pollRound_no_error (health round) (healthB round) (fun x => hok round x) u]
    dsimp only
    by_cases hemp : (u.filter (fun y => !healthB round y)).isEmpty
    · rw [if_pos hemp]
      exact ⟨[], by simp⟩
    · rw [if_neg hemp]
      exact ⟨[], by simp⟩
  | succ fuel ih =>
    intro round u
    rw [waitLoop_succ_eq,
      pollRound_no_error (health round) (healthB round) (fun x => hok round x) u]
    dsimp only
    by_cases hemp : (u.filter (fun y => !healthB round y)).isEmpty
    · rw [if_pos hemp]
      exact ⟨[], by simp⟩
    · rw [if_neg hemp]
      cases hres : waitLoop health fuel (round + 1)
          (u.filter (fun y => !healthB round y)) with
      | mk qs r2 =>
        exact ⟨qs, rfl⟩

/-- C6: waitForHealthy seeds an unhealthy set with all given nodes (round 0
queries exactly the seeded set), polls only still-unhealthy nodes each round
(a node reporting healthy at some round is never queried at a later round),
returns success exactly when the set becomes empty within the deadline, and
returns the deadline-exceeded failure if the context expires while the set is
non-empty. The health oracle is assumed error-free here; query errors are the
subject of the companion abort property. -/
theorem waitForHealthy_spec (health : Nat → Nat → Except String Bool)
    (healthB : Nat → Nat → Bool) (fuel : Nat) (nodes : List Nat)
    (hok : ∀ r x, health r x = .ok (healthB r x)) :
    ((waitForHealthy health fuel nodes).2 = .ok () ↔
      ∃ k, k ≤ fuel + 1 ∧ healthyIter healthB k 0 nodes.dedup = []) ∧
    ((waitForHealthy health fuel nodes).2 ≠ .ok () →
      (waitForHealthy health fuel nodes).2
        = .error "failed to see all nodes healthy before timeout") ∧
    (∀ x, (0, x) ∈ (waitForHealthy health fuel nodes).1 ↔ x ∈ nodes.dedup) ∧
    (∀ r r2 x, (r, x) ∈ (waitForHealthy health fuel nodes).1 →
      (r2, x) ∈ (waitForHealthy health fuel nodes).1 → r < r2 →
      healthB r x = false) := by
  refine ⟨?_, ?_, ?_, ?_⟩
  · exact waitLoop_ok_iff health healthB hok fuel 0 nodes.dedup
  · exact waitLoop_fail_timeout health healthB hok fuel 0 nodes.dedup
  · intro x
    constructor
    · intro h
      have := (waitLoop_trace_mem health healthB hok fuel 0 nodes.dedup 0 x h).2
      simpa [healthyIter_zero] using this
    · intro h
      obtain ⟨t, ht⟩ := waitLoop_trace_prefix health healthB hok fuel 0 nodes.dedup
      show (0, x) ∈ (waitLoop health fuel 0 nodes.dedup).1
      rw [ht]
      exact List.mem_append.mpr (Or.inl (List.mem_map.mpr ⟨x, h, rfl⟩))
  · intro r r2 x h1 h2 hlt
    have hm := (waitLoop_trace_mem health healthB hok fuel 0 nodes.dedup r2 x h2).2
    have := healthyIter_mem_false healthB (r2 - 0) 0 nodes.dedup x hm r (by omega)
    simpa using this

/-- Witness for C6 at a concrete input: two nodes that are healthy at once
converge in the first round. -/
theorem waitForHealthy_spec_witness :
    (waitForHealthy (fun _ _ => .ok true) 0 [1, 2]).2 = .ok () :=
  (waitForHealthy_spec (fun _ _ => .ok true) (fun _ _ => true) 0 [1, 2]
    (fun _ _ => rfl)).1.mpr ⟨1, by omega, by rfl⟩

/-- C7: when a health query errors, the wait aborts immediately with that
error: the erroring node is the last one queried (it is not kept as
still-unhealthy, no later node of the round and no later round is polled),
while a node answering false is kept in the polling set. -/
theorem waitLoop_query_error_aborts (health : Nat → Nat → Except String Bool)
    (fuel round : Nat) (pre post : List Nat) (x : Nat) (e : String)
    (hpre : ∀ y ∈ pre, ∃ b, health round y = .ok b)
    (hx : health round x = .error e) :
    waitLoop health fuel round (pre ++ x :: post)
      = ((pre ++ [x]).map (fun y => (round, y)), .error e) ∧
    (∀ (healthAfter : Nat → Except String Bool) (u : List Nat) (y : Nat)
        (rem : List Nat),
      y ∈ u → healthAfter y = .ok false →
      (pollRound healthAfter u).2 = .ok rem → y ∈ rem) := by
  constructor
  · cases fuel with
    | zero =>
      rw [waitLoop_zero_eq, pollRound_error (health round) pre post x e hpre hx]
    | succ fuel2 =>
      rw [waitLoop_succ_eq, pollRound_error (health round) pre post x e hpre hx]
  · exact fun healthAfter u y rem => pollRound_keeps_false healthAfter u y rem

/-- Witness for C7 at a concrete input: with nodes 1, 2, 3 where node 2's
query errors, the wait returns that error having queried only nodes 1 and 2
in round 0. -/
theorem waitLoop_query_error_aborts_witness :
    waitLoop (fun _ y => if y = 2 then .error "boom" else .ok false) 5 0
        ([1] ++ 2 :: [3])
      = (([1] ++ [2]).map (fun y => ((0 : Nat), y)), .error "boom") :=
  (waitLoop_query_error_aborts
    (fun _ y => if y = 2 then .error "boom" else .ok false) 5 0 [1] [3] 2 "boom"
    (by
      intro y hy
      simp at hy
      subst hy
      exact ⟨false, rfl⟩)
    rfl).1

/-- Node runtime configuration: the avalanchego executable path. -/
structure MRuntimeConfig where
  avalancheGoPath : String
  deriving DecidableEq, Repr

/-- A node as used by configuration defaulting: its identity (assigned once by
key generation), flag map, metric labels, and runtime configuration. -/
structure ConfigNode where
  nodeID : Option Nat
  flags : FlagsMap
  networkUUID : String
  networkOwner : String
  runtimeConfig : Option MRuntimeConfig
  deriving DecidableEq, Repr

/-- The network state used by configuration defaulting. -/
structure ConfigNetwork where
  uuid : String
  owner : String
  dir : String
  genesis : Option MGenesis
  primaryChainConfigs : List (String × FlagsMap)
  defaultFlags : FlagsMap
  defaultRuntimeConfig : MRuntimeConfig
  preFundedKeys : List Nat
  nodes : List ConfigNode
  deriving DecidableEq, Repr

/-- Look up a chain alias in the primary chain configuration. -/
def chainGet (cs : List (String × FlagsMap)) (a : String) : Option FlagsMap :=
  match cs with
  | [] => none
  | (a2, m) :: rest => if a2 = a then some m else chainGet rest a

/-- Store the configuration for a chain alias, replacing any existing entry
(Go map assignment). -/
def chainSet (cs : List (String × FlagsMap)) (a : String) (m : FlagsMap) :
    List (String × FlagsMap) :=
  match cs with
  | [] => [(a, m)]
  | (a2, m2) :: rest => if a2 = a then (a2, m) :: rest else (a2, m2) :: chainSet rest a m

/-- The built-in default chain configuration table (DefaultChainConfigs). -/
def defaultChainConfigs : List (String × FlagsMap) :=
  [("C", [("warp-api-enabled", .bool true), ("log-level", .str "info")])]

/-- One entry of the EnsureDefaultConfig chain loop: ensure the alias has an
entry and apply the built-in defaults without overwriting caller keys. -/
def ensureChainConfig (cs : List (String × FlagsMap)) (a : String)
    (chainConfig : FlagsMap) : List (String × FlagsMap) :=
  let cs2 := if (chainGet cs a).isSome then cs else chainSet cs a []
  match chainGet cs2 a with
  | some m => chainSet cs2 a (setDefaults m chainConfig)
  | none => cs2

/-- Modelled from the spec: Node.EnsureKeys is not under src/; per the spec it
assigns the NodeID derived from freshly generated key material the first time
configuration is ensured and is a no-op once the id is set. -/
def ensureKeys (freshID : Nat) (node : ConfigNode) : ConfigNode :=
  match node.nodeID with
  | some _ => node
  | none => { node with nodeID := some freshID }

/-- Modelled from the spec: Node.GetDataDir is not under src/; it reads the
node's data-dir flag, yielding the empty string when unset. -/
def getDataDir (node : ConfigNode) : String :=
  match flagGet node.flags DataDirKey with
  | some (.str s) => s
  | _ => ""

/-- EnsureNodeConfig: labels the node with the network uuid and owner, ensures
keys (assigning a node id when absent), defaults the node's data dir under the
network dir when the network dir is set and the node has none, and defaults
the node runtime from the network default runtime when absent. The network
fields it reads are passed explicitly. -/
def ensureNodeConfig (uuid owner dir defaultPath : String) (freshID : Nat)
    (node : ConfigNode) : ConfigNode :=
  let node1 := { node with networkUUID := uuid, networkOwner := owner }
  let node2 := ensureKeys freshID node1
  let node3 :=
    if dir.length > 0 then
      if (getDataDir node2).length = 0 then
        let dataDir := dir ++ "/" ++ toString (node2.nodeID.getD 0)
        { node2 with flags := setFlag node2.flags DataDirKey (.str dataDir) }
      else node2
    else node2
  match node3.runtimeConfig with
  | some _ => node3
  | none => { node3 with runtimeConfig := some ⟨defaultPath⟩ }

/-- The EnsureDefaultConfig node loop with its per-node fresh node ids. -/
def ensureNodes (uuid owner dir defaultPath : String) (freshIDs : Nat → Nat) :
    Nat → List ConfigNode → List ConfigNode
  | _, [] => []
  | i, node :: rest =>
    ensureNodeConfig uuid owner dir defaultPath (freshIDs i) node ::
      ensureNodes uuid owner dir defaultPath freshIDs (i + 1) rest

/-- Fresh nondeterministic inputs of one defaulting pass: the generated UUID,
the generated pre-funded keys, and the node ids derived from per-node
generated keys, indexed by node position. -/
structure FreshInputs where
  uuid : String
  keys : List Nat
  nodeIDs : Nat → Nat

/-- EnsureDefaultConfig: assigns a UUID when absent, defaults the plugin-dir
flag when a plugin dir is given, generates the pre-funded key pool when no
genesis and no existing pool is present, merges the built-in default chain
configuration table without overwriting caller-supplied keys, defaults the
runtime executable path, and ensures each node's configuration. UUID, key and
node-id generation are modelled by the fresh inputs; key-generation failure
(the source's only failure) is not modelled. -/
def ensureDefaultConfig (avalancheGoPath pluginDir : String)
    (fresh : FreshInputs) (net : ConfigNetwork) : ConfigNetwork :=
  let net1 : ConfigNetwork :=
    if net.uuid.length = 0 then { net with uuid := fresh.uuid } else net
  let net2 : ConfigNetwork :=
    if pluginDir.length > 0 then
      { net1 with defaultFlags := setDefault net1.defaultFlags PluginDirKey (.str pluginDir) }
    else net1
  let net3 : ConfigNetwork :=
    if net2.genesis.isNone && net2.preFundedKeys.isEmpty then
      { net2 with preFundedKeys := fresh.keys }
    else net2
  let mergedChains :=
    defaultChainConfigs.foldl (fun cs ac => ensureChainConfig cs ac.1 ac.2)
      net3.primaryChainConfigs
  let net4 : ConfigNetwork := { net3 with primaryChainConfigs := mergedChains }
  let net5 : ConfigNetwork :=
    if net4.defaultRuntimeConfig.avalancheGoPath.length = 0 then
      { net4 with defaultRuntimeConfig := MRuntimeConfig.mk avalancheGoPath }
    else net4
  let newNodes :=
    ensureNodes net5.uuid net5.owner net5.dir
      net5.defaultRuntimeConfig.avalancheGoPath fresh.nodeIDs 0 net5.nodes
  { net5 with nodes := newNodes }

theorem setDefault_of_isSome (m : FlagsMap) (k : String) (v : FlagVal)
    (h : (flagGet m k).isSome) : setDefault m k v = m := by
  unfold setDefault
  rw [if_pos h]

theorem setDefaults_no_op (d : FlagsMap) :
    ∀ m : FlagsMap, (∀ kv ∈ d, (flagGet m kv.1).isSome) → setDefaults m d = m := by
  induction d with
  | nil => intro m _; rfl
  | cons kv tl ih =>
    intro m h
    simp only [setDefaults, List.foldl_cons]
    rw [setDefault_of_isSome m kv.1 kv.2 (h kv (List.mem_cons_self kv tl))]
    exact ih m (fun kv2 h2 => h kv2 (List.mem_cons_of_mem kv h2))

theorem setDefaults_keys_isSome (d : FlagsMap) :
    ∀ (m : FlagsMap) (kv : String × FlagVal), kv ∈ d →
      (flagGet (setDefaults m d) kv.1).isSome := by
  induction d with
  | nil => intro m kv h; simp at h
  | cons kv0 tl ih =>
    intro m kv h
    simp only [setDefaults, List.foldl_cons]
    rcases List.mem_cons.mp h with h1 | h1
    · subst h1
      have : (flagGet (setDefault m kv.1 kv.2) kv.1).isSome :=
        flagGet_setDefault_isSome m kv.1 kv.2
      exact flagGet_setDefaults_isSome _ tl kv.1 this
    · exact ih (setDefault m kv0.1 kv0.2) kv h1

theorem setDefaults_idem (m d : FlagsMap) :
    setDefaults (setDefaults m d) d = setDefaults m d :=
  setDefaults_no_op d (setDefaults m d) (fun kv h => setDefaults_keys_isSome d m kv h)

theorem chainGet_chainSet_self (cs : List (String × FlagsMap)) (a : String)
    (m : FlagsMap) : chainGet (chainSet cs a m) a = some m := by
  induction cs with
  | nil => simp [chainSet, chainGet]
  | cons hd tl ih =>
    obtain ⟨a2, m2⟩ := hd
    by_cases h : a2 = a
    · simp [chainSet, chainGet, h]
    · simp [chainSet, chainGet, h, ih]

theorem chainSet_chainSet (cs : List (String × FlagsMap)) (a : String)
    (m m2 : FlagsMap) : chainSet (chainSet cs a m) a m2 = chainSet cs a m2 := by
  induction cs with
  | nil => simp [chainSet]
  | cons hd tl ih =>
    obtain ⟨a2, m3⟩ := hd
    by_cases h : a2 = a
    · simp [chainSet, h]
    · simp [chainSet, h, ih]

theorem ensureChainConfig_idem (cs : List (String × FlagsMap)) (a : String)
    (cfg : FlagsMap) :
    ensureChainConfig (ensureChainConfig cs a cfg) a cfg
      = ensureChainConfig cs a cfg := by
  have hfirst : ∃ cs2 m, chainGet cs2 a = some m ∧
      ensureChainConfig cs a cfg = chainSet cs2 a (setDefaults m cfg) := by
    unfold ensureChainConfig
    by_cases h : (chainGet cs a).isSome
    · obtain ⟨m, hm⟩ := Option.isSome_iff_exists.mp h
      exact ⟨cs, m, hm, by rw [if_pos h]; dsimp only; rw [hm]⟩
    · refine ⟨chainSet cs a [], [], chainGet_chainSet_self cs a [], ?_⟩
      rw [if_neg h]
      dsimp only
      rw [chainGet_chainSet_self cs a []]
  obtain ⟨cs2, m, hm, heq⟩ := hfirst
  rw [heq]
  unfold ensureChainConfig
  have hsome : (chainGet (chainSet cs2 a (setDefaults m cfg)) a).isSome := by
    rw [chainGet_chainSet_self]
    rfl
  rw [if_pos hsome]
  dsimp only
  rw [chainGet_chainSet_self]
  dsimp only
  rw [setDefaults_idem, chainSet_chainSet]

theorem configNode_update_self (n : ConfigNode) (uuid owner : String)
    (h1 : n.networkUUID = uuid) (h2 : n.networkOwner = owner) :
    { n with networkUUID := uuid, networkOwner := owner } = n := by
  cases n
  simp_all

theorem ensureKeys_of_isSome (id2 : Nat) (n : ConfigNode)
    (h : n.nodeID.isSome) : ensureKeys id2 n = n := by
  unfold ensureKeys
  cases hn : n.nodeID with
  | some v => rfl
  | none => rw [hn] at h; simp at h

/-- The fields of an ensured node: metric labels are set, the node id and the
runtime are present, and with a network dir set the data dir is non-empty. -/
theorem ensureNodeConfig_fields (uuid owner dir defaultPath : String)
    (id1 : Nat) (node : ConfigNode) :
    (ensureNodeConfig uuid owner dir defaultPath id1 node).networkUUID = uuid ∧
    (ensureNodeConfig uuid owner dir defaultPath id1 node).networkOwner = owner ∧
    (ensureNodeConfig uuid owner dir defaultPath id1 node).nodeID.isSome ∧
    (ensureNodeConfig uuid owner dir defaultPath id1 node).runtimeConfig.isSome ∧
    (dir.length > 0 →
      (getDataDir (ensureNodeConfig uuid owner dir defaultPath id1 node)).length ≠ 0) := by
  obtain ⟨nid, fl, nu, no2, rc⟩ := node
  unfold ensureNodeConfig
  dsimp only
  have hkeys : ∀ nid2 : Option Nat, (ensureKeys id1
      { nodeID := nid2, flags := fl, networkUUID := uuid, networkOwner := owner,
        runtimeConfig := rc } : ConfigNode)
      = { nodeID := some (nid2.getD id1), flags := fl, networkUUID := uuid,
          networkOwner := owner, runtimeConfig := rc } := by
    intro nid2
    cases nid2 <;> rfl
  rw [hkeys nid]
  by_cases hdir : dir.length > 0
  · rw [if_pos hdir]
    by_cases hdd : (getDataDir
        { nodeID := some (nid.getD id1), flags := fl, networkUUID := uuid,
          networkOwner := owner, runtimeConfig := rc }).length = 0
    · rw [if_pos hdd]
      dsimp only
      have hget : getDataDir
          { nodeID := some (nid.getD id1),
            flags := setFlag fl DataDirKey
              (.str (dir ++ "/" ++ toString ((some (nid.getD id1) : Option Nat).getD 0))),
            networkUUID := uuid, networkOwner := owner, runtimeConfig := rc }
          = dir ++ "/" ++ toString ((some (nid.getD id1) : Option Nat).getD 0) := by
        unfold getDataDir
        rw [flagGet_setFlag_self]
      cases rc with
      | some r => exact ⟨rfl, rfl, rfl, rfl, fun _ => by
          rw [hget]
          simp [String.length_append]
          omega⟩
      | none => exact ⟨rfl, rfl, rfl, rfl, fun _ => by
          rw [show getDataDir
              { nodeID := some (nid.getD id1),
                flags := setFlag fl DataDirKey
                  (.str (dir ++ "/" ++ toString ((some (nid.getD id1) : Option Nat).getD 0))),
                networkUUID := uuid, networkOwner := owner,
                runtimeConfig := some (MRuntimeConfig.mk defaultPath) }
              = dir ++ "/" ++ toString ((some (nid.getD id1) : Option Nat).getD 0) from by
            unfold getDataDir
            rw [flagGet_setFlag_self]]
          simp [String.length_append]
          omega⟩
    · rw [if_neg hdd]
      cases rc with
      | some r => exact ⟨rfl, rfl, rfl, rfl, fun _ => hdd⟩
      | none => exact ⟨rfl, rfl, rfl, rfl, fun _ => hdd⟩
  · rw [if_neg hdir]
    cases rc with
    | some r => exact ⟨rfl, rfl, rfl, rfl, fun h => absurd h hdir⟩
    | none => exact ⟨rfl, rfl, rfl, rfl, fun h => absurd h hdir⟩

/-- Re-ensuring an already-ensured node changes nothing. -/
theorem ensureNodeConfig_no_op (uuid owner dir defaultPath : String) (id2 : Nat)
    (n : ConfigNode) (h1 : n.networkUUID = uuid) (h2 : n.networkOwner = owner)
    (h3 : n.nodeID.isSome) (h4 : n.runtimeConfig.isSome)
    (h5 : dir.length > 0 → (getDataDir n).length ≠ 0) :
    ensureNodeConfig uuid owner dir defaultPath id2 n = n := by
  unfold ensureNodeConfig
  rw [configNode_update_self n uuid owner h1 h2]
  dsimp only
  rw [ensureKeys_of_isSome id2 n h3]
  by_cases hdir : dir.length > 0
  · rw [if_pos hdir, if_neg (h5 hdir)]
    cases hrc : n.runtimeConfig with
    | some r => rfl
    | none => rw [hrc] at h4; simp at h4
  · rw [if_neg hdir]
    cases hrc : n.runtimeConfig with
    | some r => rfl
    | none => rw [hrc] at h4; simp at h4

theorem ensureNodes_idem (uuid owner dir defaultPath : String)
    (f1 f2 : Nat → Nat) :
    ∀ (l : List ConfigNode) (i j : Nat),
      ensureNodes uuid owner dir defaultPath f2 j
          (ensureNodes uuid owner dir defaultPath f1 i l)
        = ensureNodes uuid owner dir defaultPath f1 i l := by
  intro l
  induction l with
  | nil => intro i j; rfl
  | cons node rest ih =>
    intro i j
    show ensureNodes uuid owner dir defaultPath f2 j
        (ensureNodeConfig uuid owner dir defaultPath (f1 i) node ::
          ensureNodes uuid owner dir defaultPath f1 (i + 1) rest) = _
    unfold ensureNodes
    obtain ⟨g1, g2, g3, g4, g5⟩ :=
      ensureNodeConfig_fields uuid owner dir defaultPath (f1 i) node
    rw [ensureNodeConfig_no_op uuid owner dir defaultPath (f2 j) _ g1 g2 g3 g4 g5]
    rw [ih (i + 1) (j + 1)]

theorem mergedChains_idem (cs : List (String × FlagsMap)) :
    defaultChainConfigs.foldl (fun cs2 ac => ensureChainConfig cs2 ac.1 ac.2)
        (defaultChainConfigs.foldl (fun cs2 ac => ensureChainConfig cs2 ac.1 ac.2) cs)
      = defaultChainConfigs.foldl (fun cs2 ac => ensureChainConfig cs2 ac.1 ac.2) cs := by
  simp only [defaultChainConfigs, List.foldl_cons, List.foldl_nil]
  exact ensureChainConfig_idem cs "C" _

/-- The output of one defaulting pass: its uuid is non-empty, the plugin-dir
flag is present when a plugin dir was given, the key pool is non-empty when
the genesis is absent, the chain defaults are saturated, the runtime path is
the supplied one when empty, and the nodes are the ensured nodes. -/
theorem ensureDefaultConfig_shape (p pd : String) (f1 : FreshInputs)
    (net : ConfigNetwork) (huuid : f1.uuid.length ≠ 0)
    (hkeys : ¬f1.keys.isEmpty = true) :
    ∃ (u : String) (df : FlagsMap) (g : Option MGenesis) (pk : List Nat)
      (cc : List (String × FlagsMap)) (rp : String) (nds : List ConfigNode),
      ensureDefaultConfig p pd f1 net
        = { uuid := u, owner := net.owner, dir := net.dir, genesis := g,
            primaryChainConfigs := cc, defaultFlags := df,
            defaultRuntimeConfig := ⟨rp⟩, preFundedKeys := pk,
            nodes := ensureNodes u net.owner net.dir rp f1.nodeIDs 0 nds } ∧
      u.length ≠ 0 ∧
      (pd.length > 0 → (flagGet df PluginDirKey).isSome) ∧
      ((g.isNone && pk.isEmpty) = false) ∧
      (defaultChainConfigs.foldl (fun cs2 ac => ensureChainConfig cs2 ac.1 ac.2) cc
        = cc) ∧
      (rp.length = 0 → rp = p) := by
  have hkf : f1.keys.isEmpty = false := by
    cases hb : f1.keys.isEmpty
    · rfl
    · exact absurd hb hkeys
  refine ⟨(if net.uuid.length = 0 then f1.uuid else net.uuid),
    (if pd.length > 0 then setDefault net.defaultFlags PluginDirKey (.str pd)
      else net.defaultFlags),
    net.genesis,
    (if (net.genesis.isNone && net.preFundedKeys.isEmpty) = true then f1.keys
      else net.preFundedKeys),
    defaultChainConfigs.foldl (fun cs2 ac => ensureChainConfig cs2 ac.1 ac.2)
      net.primaryChainConfigs,
    (if net.defaultRuntimeConfig.avalancheGoPath.length = 0 then p
      else net.defaultRuntimeConfig.avalancheGoPath),
    net.nodes, ?_, ?_, ?_, ?_, mergedChains_idem net.primaryChainConfigs, ?_⟩
  · unfold ensureDefaultConfig
    dsimp only
    split_ifs <;> rfl
  · split_ifs with h
    · exact huuid
    · exact h
  · intro hp
    rw [if_pos hp]
    exact flagGet_setDefault_isSome net.defaultFlags PluginDirKey (.str pd)
  · split_ifs with h
    · rw [hkf, Bool.and_false]
    · simpa using h
  · split_ifs with h
    · exact fun _ => rfl
    · exact fun hc => absurd hc h

/-- C9: EnsureDefaultConfig is idempotent. Running the defaulting step twice
with the same path arguments (and arbitrary fresh generation outcomes for the
second run) yields exactly the state after the first run: no new UUID, keys,
flag, chain-config, runtime-path, or node value is introduced. The fresh
inputs of the first run satisfy what generation guarantees: a non-empty UUID
and a non-empty generated key pool. -/
theorem ensureDefaultConfig_idempotent (p pd : String) (f1 f2 : FreshInputs)
    (net : ConfigNetwork) (huuid : f1.uuid.length ≠ 0)
    (hkeys : ¬f1.keys.isEmpty = true) :
    ensureDefaultConfig p pd f2 (ensureDefaultConfig p pd f1 net)
      = ensureDefaultConfig p pd f1 net := by
  obtain ⟨u, df, g, pk, cc, rp, nds, hR, hu, hdf, hgpk, hcc, hrp⟩ :=
    ensureDefaultConfig_shape p pd f1 net huuid hkeys
  have hkeysneg : ¬((g.isNone && pk.isEmpty) = true) := by
    rw [hgpk]
    simp
  rw [hR]
  unfold ensureDefaultConfig
  try dsimp only
  rw [if_neg hu]
  try dsimp only
  by_cases h2 : pd.length > 0
  · rw [if_pos h2, setDefault_of_isSome df PluginDirKey (.str pd) (hdf h2)]
    try dsimp only
    rw [if_neg hkeysneg]
    try dsimp only
    rw [hcc]
    try dsimp only
    by_cases h4 : rp.length = 0
    · rw [if_pos h4]
      try dsimp only
      rw [show MRuntimeConfig.mk p = MRuntimeConfig.mk rp from by rw [hrp h4]]
      rw [show p = rp from (hrp h4).symm]
      rw [ensureNodes_idem]
    · rw [if_neg h4]
      try dsimp only
      rw [ensureNodes_idem]
  · rw [if_neg h2]
    try dsimp only
    rw [if_neg hkeysneg]
    try dsimp only
    rw [hcc]
    try dsimp only
    by_cases h4 : rp.length = 0
    · rw [if_pos h4]
      try dsimp only
      rw [show MRuntimeConfig.mk p = MRuntimeConfig.mk rp from by rw [hrp h4]]
      rw [show p = rp from (hrp h4).symm]
      rw [ensureNodes_idem]
    · rw [if_neg h4]
      try dsimp only
      rw [ensureNodes_idem]

/-- Witness for C9 at a concrete network: a second defaulting pass with
different fresh outcomes changes nothing. -/
theorem ensureDefaultConfig_idempotent_witness :
    ensureDefaultConfig "/avago" "/plugins" ⟨"u2", [9], fun i => i + 20⟩
        (ensureDefaultConfig "/avago" "/plugins" ⟨"u1", [1, 2], fun i => i + 10⟩
          ⟨"", "own", "", none, [], [], ⟨""⟩, [], []⟩)
      = ensureDefaultConfig "/avago" "/plugins" ⟨"u1", [1, 2], fun i => i + 10⟩
          ⟨"", "own", "", none, [], [], ⟨""⟩, [], []⟩ :=
  ensureDefaultConfig_idempotent "/avago" "/plugins"
    ⟨"u1", [1, 2], fun i => i + 10⟩ ⟨"u2", [9], fun i => i + 20⟩
    ⟨"", "own", "", none, [], [], ⟨""⟩, [], []⟩ (by decide) (by decide)

end Tmpnet
